import Mathlib

/-!
Verification development for the Grafana query helper
(`skills/grafana/references/query_helper.py`).

The Python code is shallowly embedded: JSON values become the inductive
type `J`, Python exceptions become the error type `PyErr`, fallible code
returns `Except PyErr _`, and the network transport of the retry loops is
abstracted as a function from the attempt index to that attempt's outcome.
Wall-clock sleeping is recorded as a list of slept durations (seconds).
`datetime.fromtimestamp(..).strftime(..)` depends on the host time zone,
so the formatters take the time-rendering function as a parameter.
-/

/-- Python exceptions that the embedded code can raise.  `exception` is a
plain `Exception(msg)`; the other constructors are the built-in exception
types the helper code raises or catches. -/
inductive PyErr where
  | keyError (k : String)
  | indexError (msg : String)
  | typeError
  | valueError
  | attributeError
  | exception (msg : String)
deriving DecidableEq, Repr

/-- JSON-like values: the payloads the helper receives and inspects.
Numbers are modelled as integers (the claims under study involve no
genuine floating-point behaviour); objects are insertion-ordered
association lists, as Python dicts are. -/
inductive J where
  | null
  | bool (b : Bool)
  | int (n : Int)
  | str (s : String)
  | arr (xs : List J)
  | obj (fields : List (String × J))
deriving Repr

/-- Python truthiness (`bool(x)`) for the modelled values. -/
def truthy : J → Bool
  | .null => false
  | .bool b => b
  | .int n => n != 0
  | .str s => !s.isEmpty
  | .arr xs => !xs.isEmpty
  | .obj fs => !fs.isEmpty

/-- Python `x == "lit"`: true only for the equal string (values of other
types compare unequal to a string). -/
def jEqStr (j : J) (s : String) : Bool :=
  match j with
  | .str t => t == s
  | _ => false

/-- Python `d.get(k, default)`.  Raises `AttributeError` when the receiver
is not a dict. -/
def jGetD : J → String → J → Except PyErr J
  | .obj fs, k, d => .ok ((((fs.find? (fun p => p.1 == k))).map (fun p => p.2)).getD d)
  | _, _, _ => .error .attributeError

/-- Python `x[k]` for a string key: dict lookup raising `KeyError`;
subscripting any other modelled value by a string raises `TypeError`. -/
def jSubscrS : J → String → Except PyErr J
  | .obj fs, k =>
    match fs.find? (fun p => p.1 == k) with
    | some p => .ok p.2
    | none => .error (.keyError k)
  | _, _ => .error .typeError

/-- Python `len(x)` for the sized values; `TypeError` otherwise. -/
def jLen : J → Except PyErr Nat
  | .arr xs => .ok xs.length
  | .str s => .ok s.length
  | .obj fs => .ok fs.length
  | _ => .error .typeError

/-- Python `x[i]` for an integer index (supporting negative indices) on a
list or a string. -/
def jSubscrIdx : J → Int → Except PyErr J
  | .arr xs, i =>
    let n : Int := xs.length
    let k : Int := if i < 0 then i + n else i
    if 0 ≤ k ∧ k < n then .ok (xs.getD k.toNat .null)
    else .error (.indexError "list index out of range")
  | .str s, i =>
    let n : Int := s.length
    let k : Int := if i < 0 then i + n else i
    if 0 ≤ k ∧ k < n then .ok (.str (String.mk [s.data.getD k.toNat ' ']))
    else .error (.indexError "string index out of range")
  | _, _ => .error .typeError

/-- Boolean substring test on character lists. -/
def listIsInfixB (pat s : List Char) : Bool :=
  (List.range (s.length + 1)).any (fun i => pat.isPrefixOf (s.drop i))

/-- Python `k in x` for a string `k`: key test on dicts, element test on
lists, substring test on strings, `TypeError` otherwise. -/
def jContains : J → String → Except PyErr Bool
  | .obj fs, k => .ok (fs.any (fun p => p.1 == k))
  | .arr xs, k => .ok (xs.any (fun x => jEqStr x k))
  | .str s, k => .ok (listIsInfixB k.data s.data)
  | _, _ => .error .typeError

/-- Python list slice `l[:stop]` (stop may be negative). -/
def pySliceTo (stop : Int) (xs : List J) : List J :=
  let n : Int := xs.length
  let e : Int := if stop < 0 then max 0 (n + stop) else min n stop
  xs.take e.toNat

/-- Python list slice `l[start:]` (start may be negative). -/
def pySliceFrom (start : Int) (xs : List J) : List J :=
  let n : Int := xs.length
  let s : Int := if start < 0 then max 0 (n + start) else min n start
  xs.drop s.toNat

/-- Python slice `x[:stop]` yielding the items to iterate over: lists
slice to their elements, strings slice to their characters (as one-char
strings), anything else raises `TypeError`. -/
def pySliceToJ : J → Int → Except PyErr (List J)
  | .arr xs, stop => .ok (pySliceTo stop xs)
  | .str s, stop =>
    .ok ((pySliceTo stop (s.data.map (fun c => J.str (String.mk [c])))))
  | _, _ => .error .typeError

/-- Python iteration `for x in v`: lists yield elements, dicts yield keys,
strings yield characters, anything else raises `TypeError`. -/
def asIterList : J → Except PyErr (List J)
  | .arr xs => .ok xs
  | .obj fs => .ok (fs.map (fun p => J.str p.1))
  | .str s => .ok (s.data.map (fun c => J.str (String.mk [c])))
  | _ => .error .typeError

/-- Python 2-tuple unpacking `a, b = x` for the modelled values: an exact
two-element list (or two-character string) unpacks; other sized values
raise `ValueError`, unsized ones `TypeError`. -/
def unpack2 : J → Except PyErr (J × J)
  | .arr [a, b] => .ok (a, b)
  | .arr _ => .error .valueError
  | .str s =>
    match s.data with
    | [a, b] => .ok (.str (String.mk [a]), .str (String.mk [b]))
    | _ => .error .valueError
  | _ => .error .typeError

/-- Strip leading and trailing whitespace (Python `str.strip()`,
restricted to the ASCII whitespace the claims exercise). -/
def pyStripChars (cs : List Char) : List Char :=
  ((cs.dropWhile Char.isWhitespace).reverse.dropWhile Char.isWhitespace).reverse

/-- Numeric value of a decimal digit list (most significant first). -/
def digitsVal (cs : List Char) : Nat :=
  cs.foldl (fun a c => 10 * a + (c.toNat - 48)) 0

/-- Digit run with optional single underscores between digits, as Python
`int()` accepts after the sign; returns its value. -/
def digitsUndAux (acc : Nat) : List Char → Option Nat
  | [] => some acc
  | c :: rest =>
    if c.isDigit then digitsUndAux (10 * acc + (c.toNat - 48)) rest
    else if c = '_' then
      match rest with
      | c2 :: rest2 =>
        if c2.isDigit then digitsUndAux (10 * acc + (c2.toNat - 48)) rest2
        else none
      | [] => none
    else none

/-- Parse a nonempty digit run (with optional inner underscores). -/
def digitsUnd : List Char → Option Nat
  | [] => none
  | c :: rest => if c.isDigit then digitsUndAux (c.toNat - 48) rest else none

/-- Python `int(s)` on a string: strip whitespace, optional single sign,
then decimal digits; `none` models the `ValueError`. -/
def pyIntCore (cs : List Char) : Option Int :=
  match pyStripChars cs with
  | [] => none
  | c :: rest =>
    if c = '+' then (digitsUnd rest).map (fun n => (n : Int))
    else if c = '-' then (digitsUnd rest).map (fun n => -(n : Int))
    else (digitsUnd (c :: rest)).map (fun n => (n : Int))

/-- Python `int(x)` on a modelled value (used for `int(ts)`). -/
def pyIntOfJ : J → Except PyErr Int
  | .int n => .ok n
  | .bool b => .ok (if b then 1 else 0)
  | .str s =>
    match pyIntCore s.data with
    | some n => .ok n
    | none => .error .valueError
  | _ => .error .typeError

/-- A numeric value for `x / 1000` inside `datetime.fromtimestamp`:
ints (and bools, an int subclass) pass, anything else raises
`TypeError`.  The division itself is folded into the time-rendering
parameter, which receives the raw millisecond count. -/
def asNumberMs : J → Except PyErr Int
  | .int n => .ok n
  | .bool b => .ok (if b then 1 else 0)
  | _ => .error .typeError

/-- Python `isinstance(x, (int, float))` on the modelled values. -/
def isPyNumeric : J → Bool
  | .int _ => true
  | .bool _ => true
  | _ => false

/-- Python `f"{x:.2f}"` for the numeric modelled values (which are
integral, so the two decimals are zeros). -/
def fmt2f : J → String
  | .int n => toString n ++ ".00"
  | .bool b => (if b then "1" else "0") ++ ".00"
  | _ => ""

/-- Python `repr` of a string (quote escaping not modelled; the inputs
exercised contain no quotes). -/
def pyReprStr (s : String) : String := "\x27" ++ s ++ "\x27"

mutual
/-- Python `repr` of a modelled value. -/
def pyRepr : J → String
  | .null => "None"
  | .bool true => "True"
  | .bool false => "False"
  | .int n => toString n
  | .str s => pyReprStr s
  | .arr xs => "[" ++ String.intercalate ", " (pyReprList xs) ++ "]"
  | .obj fs => "\x7b" ++ String.intercalate ", " (pyReprFields fs) ++ "\x7d"

def pyReprList : List J → List String
  | [] => []
  | x :: xs => pyRepr x :: pyReprList xs

def pyReprFields : List (String × J) → List String
  | [] => []
  | p :: ps => (pyReprStr p.1 ++ ": " ++ pyRepr p.2) :: pyReprFields ps
end

/-- Python `str(x)` / f-string interpolation of a modelled value. -/
def pyStrJ : J → String
  | .str s => s
  | j => pyRepr j

/-- Escape a string for JSON output (backslash, quote and newline; the
inputs exercised contain nothing else needing escapes). -/
def jsonEscape (s : String) : String :=
  String.join (s.data.map (fun c =>
    if c = '\\' then "\\\\"
    else if c = '"' then "\\\""
    else if c = '\n' then "\\n"
    else String.mk [c]))

/-- `n` spaces. -/
def spaces (n : Nat) : String := String.mk (List.replicate n ' ')

mutual
/-- Python `json.dumps(x, indent=2)` at nesting level `lvl`. -/
def jdumpAux (lvl : Nat) : J → String
  | .null => "null"
  | .bool true => "true"
  | .bool false => "false"
  | .int n => toString n
  | .str s => "\"" ++ jsonEscape s ++ "\""
  | .arr [] => "[]"
  | .arr (x :: xs) =>
    "[\n" ++ String.intercalate ",\n" (jdumpItems (lvl + 1) (x :: xs))
      ++ "\n" ++ spaces (2 * lvl) ++ "]"
  | .obj [] => "\x7b\x7d"
  | .obj (f :: fs) =>
    "\x7b\n" ++ String.intercalate ",\n" (jdumpFields (lvl + 1) (f :: fs))
      ++ "\n" ++ spaces (2 * lvl) ++ "\x7d"

def jdumpItems (lvl : Nat) : List J → List String
  | [] => []
  | x :: xs => (spaces (2 * lvl) ++ jdumpAux lvl x) :: jdumpItems lvl xs

def jdumpFields (lvl : Nat) : List (String × J) → List String
  | [] => []
  | p :: ps =>
    (spaces (2 * lvl) ++ "\"" ++ jsonEscape p.1 ++ "\": " ++ jdumpAux lvl p.2)
      :: jdumpFields lvl ps
end

/-- Python `json.dumps(x, indent=2)`. -/
def jdumps (j : J) : String := jdumpAux 0 j

/-- Effectful map over a list in the `Except` monad, mirroring a Python
`for` loop that can raise: stops at the first exception. -/
def mapE (f : α → Except PyErr β) : List α → Except PyErr (List β)
  | [] => .ok []
  | a :: as => do
    let b ← f a
    let bs ← mapE f as
    pure (b :: bs)

/-! ## Time-range and duration parsing (`_parse_time_range`,
`_parse_duration_to_seconds`) -/

/-- The duration unit characters of the `units` maps. -/
def isDurationUnit (c : Char) : Bool :=
  c == 's' || c == 'm' || c == 'h' || c == 'd' || c == 'w'

/-- Seconds per unit (`_parse_duration_to_seconds`'s `units` dict). -/
def unitSeconds (c : Char) : Option Nat :=
  if c == 's' then some 1
  else if c == 'm' then some 60
  else if c == 'h' then some 3600
  else if c == 'd' then some 86400
  else if c == 'w' then some 604800
  else none

/-- `_parse_time_range`: a string starting with `now` is rebuilt as
`("now-" + rest-after-"now", "now")`; otherwise the stripped string is
indexed at `[-1]` (raising `IndexError` when empty) and, when its last
character is a unit letter, `("now-" + stripped, "now")` is returned,
defaulting to `("now-1h", "now")`. -/
def parse_time_range (timeRange : String) : Except PyErr (String × String) :=
  if ("now".data).isPrefixOf timeRange.data then
    .ok ("now-" ++ String.mk (timeRange.data.drop 3), "now")
  else
    let t := pyStripChars timeRange.data
    match t.getLast? with
    | none => .error (.indexError "string index out of range")
    | some c =>
      if isDurationUnit c then .ok ("now-" ++ String.mk t, "now")
      else .ok ("now-1h", "now")

/-- Core of `_parse_duration_to_seconds` on the character list of the
input: strip, then if the last character is a unit letter multiply the
`int()` of the prefix by its seconds, else take `int()` of the whole
string as seconds. -/
def parse_duration_core (cs : List Char) : Except PyErr Int :=
  let d := pyStripChars cs
  match d.getLast? with
  | none => .error (.indexError "string index out of range")
  | some c =>
    match unitSeconds c with
    | some u =>
      match pyIntCore d.dropLast with
      | some v => .ok (v * u)
      | none => .error .valueError
    | none =>
      match pyIntCore d with
      | some v => .ok v
      | none => .error .valueError

/-- `_parse_duration_to_seconds`. -/
def parse_duration_to_seconds (duration : String) : Except PyErr Int :=
  parse_duration_core duration.data

/-! ## Retry loop and the three dispatch functions -/

/-- One attempt's outcome at the abstracted transport: a 2xx response
with a decoded JSON payload, an `HTTPError` (non-2xx status, with its
code, reason and — when the error has a body stream — body), or a
`URLError` (could not connect). -/
inductive Attempt where
  | success (payload : J)
  | httpError (code : Int) (reason : String) (body : Option String)
  | urlError (reason : String)

/-- What a dispatch call did: its returned value or raised exception
(`ok none` models Python's implicit `None` when the loop is never
entered), the sleeps performed between attempts (seconds, in order), and
how many transport attempts were made. -/
structure Trace where
  outcome : Except PyErr (Option J)
  sleeps : List Nat
  attempts : Nat
deriving Repr

/-- Message of the terminal error raised for a non-2xx final attempt:
`Exception(f"Query failed: HTTP {e.code} - {e.reason}\nResponse: {body}")`
with the body read when `e.fp` is set and `""` otherwise. -/
def httpErrMsg (code : Int) (reason : String) (body : Option String) : String :=
  "Query failed: HTTP " ++ toString code ++ " - " ++ reason
    ++ "\nResponse: " ++ body.getD ""

/-- Message of the terminal error raised for a final connection failure:
`Exception(f"Connection failed: {e.reason}")`. -/
def urlErrMsg (reason : String) : String := "Connection failed: " ++ reason

/-- The terminal error a failing attempt turns into on the last loop
iteration. -/
def terminalErr : Attempt → PyErr
  | .success _ => .exception ""
  | .httpError c r b => .exception (httpErrMsg c r b)
  | .urlError r => .exception (urlErrMsg r)

/-- The shared retry loop body (`for attempt in range(max_retries)`),
at attempt index `i` with `r` iterations remaining: a success returns
immediately; a failure on the last iteration raises its terminal error;
otherwise the loop sleeps `1 * (attempt + 1)` seconds and retries. -/
def retryAux (t : Nat → Attempt) (i : Nat) : Nat → Trace
  | 0 => ⟨.ok none, [], 0⟩
  | r + 1 =>
    match t i with
    | .success p => ⟨.ok (some p), [], 1⟩
    | .httpError c reason body =>
      if r = 0 then ⟨.error (.exception (httpErrMsg c reason body)), [], 1⟩
      else
        let rest := retryAux t (i + 1) r
        ⟨rest.outcome, (i + 1) :: rest.sleeps, rest.attempts + 1⟩
    | .urlError reason =>
      if r = 0 then ⟨.error (.exception (urlErrMsg reason)), [], 1⟩
      else
        let rest := retryAux t (i + 1) r
        ⟨rest.outcome, (i + 1) :: rest.sleeps, rest.attempts + 1⟩

/-- The retry loop from attempt 0; Python's `range` of a non-positive
`max_retries` is empty. -/
def retryLoop (t : Nat → Attempt) (maxRetries : Int) : Trace :=
  retryAux t 0 maxRetries.toNat

/-- A configured datasource (`{uid, id}` of the config mapping; the
claims do not touch `isDefault`). -/
structure DS where
  uid : String
  id : Option Int
deriving Repr

/-- The insertion-ordered `self.datasources` mapping. -/
def lookupDS (dss : List (String × DS)) (name : String) : Option DS :=
  ((dss.find? (fun p => p.1 == name))).map (fun p => p.2)

/-- The `KeyError` message `get_datasource_uid` raises for an unknown
name, listing the available datasource names. -/
def dsNotFoundMsg (dss : List (String × DS)) (name : String) : String :=
  "Datasource \x27" ++ name ++ "\x27 not found.\nAvailable datasources: "
    ++ String.intercalate ", " (dss.map (fun p => p.1))

/-- `get_datasource_uid`: UID lookup by name, raising a `KeyError` that
lists the available names when absent. -/
def get_datasource_uid (dss : List (String × DS)) (name : String) :
    Except PyErr String :=
  match lookupDS dss name with
  | none => .error (.keyError (dsNotFoundMsg dss name))
  | some d => .ok d.uid

/-- `query_prometheus_direct`: looks the datasource up with a bare
`self.datasources[datasource_name]` subscript (plain `KeyError` carrying
only the name), then runs the retry loop against the direct
`query_range` endpoint.  URL building, headers and the request body do
not affect the returned value and are elided; the transport is the
abstracted `t`. -/
def query_prometheus_direct (dss : List (String × DS)) (name : String)
    (maxRetries : Int) (t : Nat → Attempt) : Trace :=
  match lookupDS dss name with
  | none => ⟨.error (.keyError name), [], 0⟩
  | some _ => retryLoop t maxRetries

/-- `query_prometheus` (gateway path): resolves the UID via
`get_datasource_uid` (which can raise the listing `KeyError`), parses the
time range (which can raise `IndexError`), then runs the retry loop
against the gateway `ds/query` endpoint. -/
def query_prometheus (dss : List (String × DS)) (name : String)
    (timeRange : String) (maxRetries : Int) (t : Nat → Attempt) : Trace :=
  match get_datasource_uid dss name with
  | .error e => ⟨.error e, [], 0⟩
  | .ok _ =>
    match parse_time_range timeRange with
    | .error e => ⟨.error e, [], 0⟩
    | .ok _ => retryLoop t maxRetries

/-- `query_prometheus_absolute`: resolves the UID via
`get_datasource_uid`, then runs the retry loop against the gateway
`ds/query` endpoint with millisecond timestamps. -/
def query_prometheus_absolute (dss : List (String × DS)) (name : String)
    (maxRetries : Int) (t : Nat → Attempt) : Trace :=
  match get_datasource_uid dss name with
  | .error e => ⟨.error e, [], 0⟩
  | .ok _ => retryLoop t maxRetries

/-! ## Result formatting (`format_series_data`, `format_prometheus_result`)

`fmtMs` stands for `datetime.fromtimestamp(x / 1000).strftime("%Y-%m-%d
%H:%M:%S")` applied to a millisecond count, and `fmtHMS` for
`datetime.fromtimestamp(x).strftime("%H:%M:%S")` applied to a second
count; both depend on the host time zone and are passed in. -/

/-- The per-frame body of the gateway-frames `simple` loop. -/
def framesSimpleLines : List J → Except PyErr (List String)
  | [] => .ok []
  | frame :: rest => do
    let schema ← jGetD frame "schema" (.obj [])
    let nameJ ← jGetD schema "name" (.str "Series")
    let data ← jGetD frame "data" (.obj [])
    let values ← jGetD data "values" (.arr [])
    let len ← jLen values
    if len ≥ 2 then do
      let vals ← jSubscrIdx values 1
      if truthy vals then do
        let latest ← jSubscrIdx vals (-1)
        let tail ← framesSimpleLines rest
        pure ((pyStrJ nameJ ++ ": " ++ pyStrJ latest) :: tail)
      else framesSimpleLines rest
    else framesSimpleLines rest

/-- The per-frame body of the gateway-frames table loop: iterates the
index range `range(max(0, len(times) - 10), len(times))`, rendering the
timestamp column entry (milliseconds) and the value column entry
positionally. -/
def framesTableRows (fmtMs : Int → String) : List J → Except PyErr (List String)
  | [] => .ok []
  | frame :: rest => do
    let schema ← jGetD frame "schema" (.obj [])
    let nameJ ← jGetD schema "name" (.str "Series")
    let data ← jGetD frame "data" (.obj [])
    let values ← jGetD data "values" (.arr [])
    let len ← jLen values
    if len ≥ 2 then do
      let times ← jSubscrIdx values 0
      let vals ← jSubscrIdx values 1
      let n ← jLen times
      let rows ← mapE (fun (i : Nat) => do
          let tj ← jSubscrIdx times (i : Int)
          let tn ← asNumberMs tj
          let vj ← jSubscrIdx vals (i : Int)
          pure ("| " ++ fmtMs tn ++ " | " ++ pyStrJ nameJ ++ " | "
            ++ (if isPyNumeric vj then fmt2f vj else pyStrJ vj) ++ " |"))
        (List.range' (n - 10) (n - (n - 10)))
      let tail ← framesTableRows fmtMs rest
      pure (rows ++ tail)
    else framesTableRows fmtMs rest

/-- The per-series body of the legacy-series `simple` loop (over the
first 20 series). -/
def seriesSimpleLines : List J → Except PyErr (List String)
  | [] => .ok []
  | s :: rest => do
    let nameJ ← jGetD s "name" (.str "Series")
    let points ← jGetD s "points" (.arr [])
    if truthy points then do
      let lp ← jSubscrIdx points (-1)
      let lv ← if truthy lp then jSubscrIdx lp 0 else pure (J.str "N/A")
      let tail ← seriesSimpleLines rest
      pure ((pyStrJ nameJ ++ ": " ++ pyStrJ lv) :: tail)
    else seriesSimpleLines rest

/-- Python `x[:40]` on the series name (which may be any value): strings
and lists slice, anything else raises `TypeError`. -/
def jSliceTo40 : J → Except PyErr J
  | .str s => .ok (.str (String.mk (s.data.take 40)))
  | .arr xs => .ok (.arr (xs.take 40))
  | _ => .error .typeError

/-- Python `points[-5:]` on a value expected to be a list. -/
def pySliceFromJ : J → Int → Except PyErr (List J)
  | .arr xs, start => .ok (pySliceFrom start xs)
  | .str s, start =>
    .ok (pySliceFrom start (s.data.map (fun c => J.str (String.mk [c]))))
  | _, _ => .error .typeError

/-- One iteration of the legacy-series table's inner point loop: a
`[value, timestamp]` point (timestamp in milliseconds) becomes a row
with the name cut to 40 characters plus `"..."`; a short point emits
nothing. -/
def seriesPointRow (fmtMs : Int → String) (nameJ : J) (point : J) :
    Except PyErr (List String) := do
  let len ← jLen point
  if len ≥ 2 then do
    let value ← jSubscrIdx point 0
    let timestamp ← jSubscrIdx point 1
    let tn ← asNumberMs timestamp
    let name40 ← jSliceTo40 nameJ
    pure [("| " ++ fmtMs tn ++ " | " ++ pyStrJ name40 ++ "... | "
      ++ (if isPyNumeric value then fmt2f value else pyStrJ value) ++ " |")]
  else pure []

/-- The per-series body of the legacy-series table loop (over the first
10 series, last 5 points of each, points being `[value, timestamp]`
pairs with millisecond timestamps). -/
def seriesTableRows (fmtMs : Int → String) : List J → Except PyErr (List String)
  | [] => .ok []
  | s :: rest => do
    let nameJ ← jGetD s "name" (.str "Series")
    let points ← jGetD s "points" (.arr [])
    let pts ← pySliceFromJ points (-5)
    let rows ← mapE (seriesPointRow fmtMs nameJ) pts
    let tail ← seriesTableRows fmtMs rest
    pure (rows.flatten ++ tail)

/-- The markdown table header used by `format_series_data`. -/
def seriesTableHeader : List String :=
  ["| Time | Series | Value |", "|------|--------|-------|"]

/-- Body of `format_series_data` inside its `try` block: dispatch on the
shape found at `result["results"]["A"]`. -/
def fsdBody (fmtMs : Int → String) (result : J) (formatType : String) :
    Except PyErr String := do
  let results ← jSubscrS result "results"
  let resultData ← jSubscrS results "A"
  let hasFrames ← jContains resultData "frames"
  if hasFrames then do
    let frames ← jSubscrS resultData "frames"
    if !truthy frames then pure "No data points"
    else do
      let frameList ← asIterList frames
      if formatType == "simple" then do
        let lines ← framesSimpleLines frameList
        pure (String.intercalate "\n" lines)
      else do
        let rows ← framesTableRows fmtMs frameList
        pure (String.intercalate "\n" (seriesTableHeader ++ rows))
  else do
    let hasSeries ← jContains resultData "series"
    if hasSeries then do
      let seriesList ← jSubscrS resultData "series"
      if !truthy seriesList then pure "No data points"
      else do
        let n ← jLen seriesList
        if formatType == "simple" then do
          let firstTwenty ← pySliceToJ seriesList 20
          let lines ← seriesSimpleLines firstTwenty
          let lines := if n > 20 then
              lines ++ ["... and " ++ toString ((n : Int) - 20) ++ " more series"]
            else lines
          pure (String.intercalate "\n" lines)
        else do
          let firstTen ← pySliceToJ seriesList 10
          let rows ← seriesTableRows fmtMs firstTen
          let rows := if n > 10 then
              rows ++ ["| ... | (" ++ toString ((n : Int) - 10) ++ " more series) | ... |"]
            else rows
          pure (String.intercalate "\n" (seriesTableHeader ++ rows))
    else pure "Unknown response format"

/-- `format_series_data`: the Grafana-shaped formatter.  Its `try` block
catches `KeyError` and `IndexError`, turning them into an
`"Error formatting data: ..."` string that appends the JSON dump of the
raw result; other exceptions propagate. -/
def format_series_data (fmtMs : Int → String) (result : J)
    (formatType : String) : Except PyErr String :=
  if !truthy result then .ok "No data"
  else
    match jContains result "results" with
    | .error e => .error e
    | .ok hasResults =>
      if !hasResults then .ok "No data"
      else if formatType == "json" then .ok (jdumps result)
      else
        match fsdBody fmtMs result formatType with
        | .error (.keyError k) =>
          .ok ("Error formatting data: " ++ pyReprStr k ++ "\n" ++ jdumps result)
        | .error (.indexError m) =>
          .ok ("Error formatting data: " ++ m ++ "\n" ++ jdumps result)
        | r => r

/-- The per-series body of the native `simple` loop. -/
def nativeSimpleLines : List J → Except PyErr (List String)
  | [] => .ok []
  | s :: rest => do
    let metric ← jGetD s "metric" (.obj [])
    let values ← jGetD s "values" (.arr [])
    let inst ← jGetD metric "instance" .null
    let job ← jGetD metric "job" .null
    let instance_ := if truthy inst then inst
      else if truthy job then job else J.str "Series"
    if truthy values then do
      let lastPt ← jSubscrIdx values (-1)
      let (_, latestVal) ← unpack2 lastPt
      let tail ← nativeSimpleLines rest
      pure ((pyStrJ instance_ ++ ": " ++ pyStrJ latestVal) :: tail)
    else nativeSimpleLines rest

/-- Python `values[-max_points:]` on the native series value list. -/
def nativeLastPoints (maxPoints : Int) : J → Except PyErr (List J)
  | .arr xs => .ok (pySliceFrom (-maxPoints) xs)
  | .str s =>
    .ok (pySliceFrom (-maxPoints) (s.data.map (fun c => J.str (String.mk [c]))))
  | _ => .error .typeError

/-- One iteration of the native table's inner point loop: a `[ts, val]`
pair unpacked, the name cut to 30 characters (no ellipsis), the value
rendered verbatim by `str()`. -/
def nativePointRow (fmtHMS : Int → String) (metricName : String) (pt : J) :
    Except PyErr String := do
  let (ts, val) ← unpack2 pt
  let tn ← pyIntOfJ ts
  pure ("| " ++ fmtHMS tn ++ " | " ++ String.mk (metricName.data.take 30)
    ++ " | " ++ pyStrJ val ++ " |")

/-- The per-series body of the native table loop: name `job/instance`
when both labels are truthy (else `str(metric)`) cut to 30 characters,
rows over the last `max_points` points, each `[ts, val]` unpacked with
the value rendered verbatim. -/
def nativeTableRows (fmtHMS : Int → String) (maxPoints : Int) :
    List J → Except PyErr (List String)
  | [] => .ok []
  | s :: rest => do
    let metric ← jGetD s "metric" (.obj [])
    let values ← jGetD s "values" (.arr [])
    let inst ← jGetD metric "instance" (.str "")
    let job ← jGetD metric "job" (.str "")
    let metricName := if truthy job && truthy inst then
        pyStrJ job ++ "/" ++ pyStrJ inst
      else pyStrJ metric
    let pts ← nativeLastPoints maxPoints values
    let rows ← mapE (nativePointRow fmtHMS metricName) pts
    let tail ← nativeTableRows fmtHMS maxPoints rest
    pure (rows ++ tail)

/-- The markdown table header used by the native table format. -/
def nativeTableHeader : List String :=
  ["| Time | Metric | Value |", "|------|--------|-------|"]

/-- `format_prometheus_result`: formats a native Prometheus envelope
(`status == "success"`), falling back to `format_series_data` for
anything else. -/
def format_prometheus_result (fmtHMS fmtMs : Int → String) (result : J)
    (formatType : String) (maxSeries maxPoints : Int) : Except PyErr String :=
  if !truthy result then .ok "No data"
  else
    match jGetD result "status" .null with
    | .error e => .error e
    | .ok status =>
      if jEqStr status "success" then do
        let data ← jGetD result "data" (.obj [])
        let results ← jGetD data "result" (.arr [])
        if !truthy results then pure "No data points"
        else if formatType == "json" then pure (jdumps result)
        else do
          let n ← jLen results
          if formatType == "simple" then do
            let firstK ← pySliceToJ results maxSeries
            let lines ← nativeSimpleLines firstK
            let lines := if (n : Int) > maxSeries then
                lines ++ ["... and " ++ toString ((n : Int) - maxSeries) ++ " more series"]
              else lines
            pure (String.intercalate "\n" lines)
          else do
            let firstK ← pySliceToJ results maxSeries
            let rows ← nativeTableRows fmtHMS maxPoints firstK
            let rows := if (n : Int) > maxSeries then
                rows ++ ["| ... | (" ++ toString ((n : Int) - maxSeries) ++ " more series) | ... |"]
              else rows
            pure (String.intercalate "\n" (nativeTableHeader ++ rows))
      else format_series_data fmtMs result formatType

/-! ## Helper lemmas -/

/-- Whether an attempt outcome is a failure (transport- or protocol-level). -/
def isFailureA : Attempt → Bool
  | .success _ => false
  | _ => true

/-- A one-entry datasource mapping. -/
def dssA : List (String × DS) := [("A", ⟨"uid-a", some 1⟩)]

/-- A transport that always fails to connect. -/
def tConn : Nat → Attempt := fun _ => .urlError "refused"

/-- A transport that fails to connect twice, then succeeds. -/
def twC1 : Nat → Attempt := fun i =>
  if i < 2 then .urlError "refused" else .success (J.int 7)

/-! ## Claims about dispatch and parsing -/

/-- A native-envelope series with one `instance` label, points as
`[timestamp, value]` pairs. -/
def mkNativeSeries (name : String) (pts : List (Int × J)) : J :=
  .obj [("metric", .obj [("instance", .str name)]),
        ("values", .arr (pts.map (fun p => J.arr [.int p.1, p.2])))]

/-- A native success envelope over the given series. -/
def mkNativePayload (ss : List (String × List (Int × J))) : J :=
  .obj [("status", .str "success"),
        ("data", .obj [("result",
          .arr (ss.map (fun s => mkNativeSeries s.1 s.2)))])]

/-- The `simple`-mode line for one series: its name and the value of its
last point. -/
def simpleLineOf (p : String × List (Int × J)) : String :=
  p.1 ++ ": " ++ pyStrJ (((p.2.getLast?).map Prod.snd).getD .null)

/-- The 25 concrete series used by the C8 witness. -/
def ssC8 : List (String × List (Int × J)) :=
  (List.range 25).map (fun i => ("s" ++ toString i, [((0 : Int), J.int i)]))

/-- The last `k` elements of a list (Python `l[-k:]` for `k > 0`). -/
def takeLastL {α : Type} (k : Nat) (xs : List α) : List α :=
  xs.drop (xs.length - k)

/-- A gateway frame: optional declared name, a millisecond timestamp
column and a value column. -/
def mkFrame (name : Option String) (times : List Int) (vals : List J) : J :=
  .obj ((match name with
    | some nm => [("schema", J.obj [("name", J.str nm)])]
    | none => ([] : List (String × J)))
    ++ [("data", J.obj [("values",
          J.arr [J.arr (times.map J.int), J.arr vals])])])

/-- A gateway-frames payload over the given frames. -/
def mkFramesPayload (frames : List J) : J :=
  .obj [("results", .obj [("A", .obj [("frames", .arr frames)])])]

/-- The series name the frames formatter uses: the declared name, or the
`"Series"` placeholder. -/
def frameNameOf : Option String → String
  | some s => s
  | none => "Series"

/-- The value cell of the gateway table formats: two decimals for
numerics, `str()` otherwise. -/
def valueCell (v : J) : String :=
  if isPyNumeric v then fmt2f v else pyStrJ v

/-- One gateway-frames table row. -/
def framesRowOf (fM : Int → String) (nm : String) (p : Int × J) : String :=
  "| " ++ fM p.1 ++ " | " ++ nm ++ " | " ++ valueCell p.2 ++ " |"

/-- A legacy (v7.5) series: name and `[value, timestamp]` points. -/
def mkLegacySeries (name : String) (pts : List (J × Int)) : J :=
  .obj [("name", .str name), ("points",
    .arr (pts.map (fun p => J.arr [p.1, .int p.2])))]

/-- A legacy gateway-series payload. -/
def mkSeriesPayload (ser : List J) : J :=
  .obj [("results", .obj [("A", .obj [("series", .arr ser)])])]

/-- One legacy-series table row: note the name cut to 40 characters with
`"..."` appended unconditionally. -/
def seriesRowOf (fM : Int → String) (nm : String) (p : J × Int) : String :=
  "| " ++ fM p.2 ++ " | " ++ String.mk (nm.data.take 40) ++ "... | "
    ++ valueCell p.1 ++ " |"

/-- A native payload with one series labelled by `instance` and `job`. -/
def mkNativeTablePayload (inst job : String) (pts : List (Int × J)) : J :=
  .obj [("status", .str "success"),
        ("data", .obj [("result", .arr [
          .obj [("metric", .obj [("instance", .str inst), ("job", .str job)]),
                ("values", .arr (pts.map (fun p => J.arr [.int p.1, p.2])))]])])]

/-- One native table row: name cut to 30 characters without ellipsis,
value rendered verbatim by `str()`. -/
def nativeRowOf (fH : Int → String) (nm : String) (p : Int × J) : String :=
  "| " ++ fH p.1 ++ " | " ++ String.mk (nm.data.take 30) ++ " | "
    ++ pyStrJ p.2 ++ " |"

/-- A time-renderer producing a fixed cell, standing in for the
timezone-dependent `strftime` output. -/
def tT : Int → String := fun _ => "T"

/-! ## Theorems -/

theorem char_digit_toNat (c : Char) (h : c.isDigit = true) :
    48 ≤ c.val.toNat ∧ c.val.toNat ≤ 57 := by
  simp [Char.isDigit, decide_eq_true_eq] at h
  obtain ⟨h1, h2⟩ := h
  exact ⟨h1, h2⟩

theorem ne_of_digit_toNat (c d : Char) (h : c.isDigit = true)
    (hd : d.val.toNat < 48 ∨ 57 < d.val.toNat) : c ≠ d := by
  intro he
  obtain ⟨a, b⟩ := char_digit_toNat c h
  subst he
  omega

theorem not_ws_of_digit (c : Char) (h : c.isDigit = true) : c.isWhitespace = false := by
  simp only [Char.isWhitespace, Bool.or_eq_false_iff, decide_eq_false_iff_not]
  refine ⟨⟨⟨?_, ?_⟩, ?_⟩, ?_⟩ <;> exact ne_of_digit_toNat c _ h (by decide)

theorem isDurationUnit_false_of_digit (c : Char) (h : c.isDigit = true) :
    isDurationUnit c = false := by
  simp only [isDurationUnit, Bool.or_eq_false_iff, beq_eq_false_iff_ne, ne_eq]
  refine ⟨⟨⟨⟨?_, ?_⟩, ?_⟩, ?_⟩, ?_⟩ <;> exact ne_of_digit_toNat c _ h (by decide)

theorem unitSeconds_none_of_digit (c : Char) (h : c.isDigit = true) :
    unitSeconds c = none := by
  simp only [unitSeconds]
  have hs := ne_of_digit_toNat c 's' h (by decide)
  have hm := ne_of_digit_toNat c 'm' h (by decide)
  have hh := ne_of_digit_toNat c 'h' h (by decide)
  have hd := ne_of_digit_toNat c 'd' h (by decide)
  have hw := ne_of_digit_toNat c 'w' h (by decide)
  simp [hs, hm, hh, hd, hw]

/-- Stripping is the identity on a list with no whitespace at either end;
in particular on all-digit lists. -/
theorem pyStripChars_id (l : List Char) (h : ∀ c ∈ l, c.isWhitespace = false) :
    pyStripChars l = l := by
  unfold pyStripChars
  have h1 : List.dropWhile Char.isWhitespace l = l := by
    rw [List.dropWhile_eq_self_iff]
    intro hne
    simpa using h _ (List.getElem_mem hne)
  rw [h1]
  have h2 : List.dropWhile Char.isWhitespace l.reverse = l.reverse := by
    rw [List.dropWhile_eq_self_iff]
    intro hne
    simpa using h _ (List.mem_reverse.mp (List.getElem_mem hne))
  rw [h2, List.reverse_reverse]

theorem digitsUndAux_all (l : List Char) : ∀ acc, l.all Char.isDigit = true →
    digitsUndAux acc l = some (l.foldl (fun a c => 10 * a + (c.toNat - 48)) acc) := by
  induction l with
  | nil => intro acc _; simp [digitsUndAux]
  | cons c rest ih =>
    intro acc h
    simp only [List.all_cons, Bool.and_eq_true] at h
    rw [digitsUndAux.eq_def]
    simp only [h.1, if_true, List.foldl_cons]
    exact ih _ h.2

theorem digitsUnd_all (l : List Char) (hne : l ≠ []) (h : l.all Char.isDigit = true) :
    digitsUnd l = some (digitsVal l) := by
  match l, hne with
  | c :: rest, _ =>
    simp only [List.all_cons, Bool.and_eq_true] at h
    simp only [digitsUnd, h.1, if_true, digitsVal, List.foldl_cons]
    have := digitsUndAux_all rest (10 * 0 + (c.toNat - 48)) h.2
    simpa using this

theorem pyIntCore_digits (l : List Char) (hne : l ≠ []) (h : l.all Char.isDigit = true) :
    pyIntCore l = some ((digitsVal l : Nat) : Int) := by
  have hid : pyStripChars l = l := by
    apply pyStripChars_id
    intro c hc
    exact not_ws_of_digit c (by
      have := List.all_eq_true.mp h c hc
      simpa using this)
  unfold pyIntCore
  rw [hid]
  match l, hne with
  | c :: rest, _ =>
    simp only [List.all_cons, Bool.and_eq_true] at h
    have hplus : ¬(c = '+') := ne_of_digit_toNat c '+' h.1 (by decide)
    have hminus : ¬(c = '-') := ne_of_digit_toNat c '-' h.1 (by decide)
    simp only [hplus, if_false, hminus]
    rw [digitsUnd_all (c :: rest) (by simp) (by simp [h.1, h.2])]
    rfl

theorem bindE_ok {α β : Type} (a : α) (f : α → Except PyErr β) :
    (Except.ok a >>= f) = f a := rfl

theorem bindE_error {α β : Type} (e : PyErr) (f : α → Except PyErr β) :
    ((Except.error e : Except PyErr α) >>= f) = .error e := rfl

theorem pureE {α : Type} (a : α) : (pure a : Except PyErr α) = .ok a := rfl

theorem mapE_ok_of {α β : Type} (f : α → Except PyErr β) (g : α → β) :
    ∀ (l : List α), (∀ a ∈ l, f a = .ok (g a)) → mapE f l = .ok (l.map g) := by
  intro l
  induction l with
  | nil => intro _; rfl
  | cons a as ih =>
    intro h
    simp only [mapE, h a (by simp), bindE_ok, ih (fun x hx => h x (by simp [hx])),
      List.map_cons]
    rfl

theorem mapE_error_of {α β : Type} (f : α → Except PyErr β) (g : α → β) (e : PyErr) :
    ∀ (l : List α), (∀ a ∈ l, f a = .ok (g a) ∨ f a = .error e) →
      (∃ a ∈ l, f a = .error e) → mapE f l = .error e := by
  intro l
  induction l with
  | nil => rintro _ ⟨a, ha, _⟩; exact absurd ha (List.not_mem_nil a)
  | cons a as ih =>
    rintro h ⟨b, hb, hbe⟩
    rcases h a (by simp) with ha | ha
    · have hex : ∃ x ∈ as, f x = .error e := by
        rcases List.mem_cons.mp hb with rfl | hbm
        · rw [ha] at hbe; exact absurd hbe (by simp)
        · exact ⟨b, hbm, hbe⟩
      simp only [mapE, ha, bindE_ok, ih (fun x hx => h x (by simp [hx])) hex]
      rfl
    · simp only [mapE, ha, bindE_error]

theorem jSubscrIdx_arr_nat (xs : List J) (i : Nat) (h : i < xs.length) :
    jSubscrIdx (.arr xs) (i : Int) = .ok (xs.getD i .null) := by
  have h1 : ¬((i : Int) < 0) := by omega
  simp only [jSubscrIdx, h1, if_false]
  rw [if_pos (by constructor <;> omega)]
  simp

theorem jSubscrIdx_arr_neg_one (xs : List J) (h : xs ≠ []) :
    jSubscrIdx (.arr xs) (-1) = .ok ((xs.getLast?).getD .null) := by
  have hlen : 0 < xs.length := List.length_pos.mpr h
  have h1 : ((-1 : Int) < 0) := by omega
  simp only [jSubscrIdx, h1, if_true]
  rw [if_pos (by constructor <;> omega)]
  have htn : ((-1 : Int) + xs.length).toNat = xs.length - 1 := by omega
  rw [htn]
  congr 1
  rcases List.eq_nil_or_concat xs with rfl | ⟨l, b, rfl⟩
  · simp at h
  · simp only [List.concat_eq_append, List.getLast?_concat]
    simp [List.getD, List.getElem?_concat_length]

theorem pySliceFrom_neg (xs : List J) (k : Nat) (hk : 0 < k) :
    pySliceFrom (-(k : Int)) xs = xs.drop (xs.length - k) := by
  have h1 : (-(k : Int) < 0) := by omega
  simp only [pySliceFrom, h1, if_true]
  congr 1
  omega

theorem pySliceTo_nat (xs : List J) (k : Nat) :
    pySliceTo (k : Int) xs = xs.take k := by
  have h1 : ¬((k : Int) < 0) := by omega
  simp only [pySliceTo, h1, if_false]
  have : (min (xs.length : Int) k).toNat = min xs.length k := by omega
  rw [this, min_comm, ← List.take_take, List.take_length]

theorem range'_map_getD {α : Type} (l : List α) (d : α) :
    ∀ (k m : Nat), l.length - m = k → m ≤ l.length →
      (List.range' m k).map (fun i => l.getD i d) = l.drop m := by
  intro k
  induction k with
  | zero =>
    intro m hk hm
    have : m = l.length := by omega
    simp [this, List.drop_length]
  | succ k ih =>
    intro m hk hm
    have hlt : m < l.length := by omega
    rw [List.range'_succ, List.map_cons]
    rw [List.getD_eq_getElem l d hlt, List.drop_eq_getElem_cons hlt]
    congr 1
    exact ih (m + 1) (by omega) (by omega)

theorem retryAux_success (t : Nat → Attempt) :
    ∀ (r i k : Nat) (p : J), k < r → t (i + k) = .success p →
      (∀ j, j < k → isFailureA (t (i + j)) = true) →
      retryAux t i r = ⟨.ok (some p), (List.range k).map (fun j => i + j + 1), k + 1⟩ := by
  intro r
  induction r with
  | zero => intro i k p hk; omega
  | succ r ih =>
    intro i k p hk hs hf
    match k with
    | 0 =>
      simp only [Nat.add_zero] at hs
      simp [retryAux, hs]
    | k' + 1 =>
      have hfail : isFailureA (t i) = true := by
        have := hf 0 (by omega)
        simpa using this
      have hrec : retryAux t (i + 1) r
          = ⟨.ok (some p), (List.range k').map (fun j => (i + 1) + j + 1), k' + 1⟩ := by
        apply ih (i + 1) k' p (by omega)
        · have : i + 1 + k' = i + (k' + 1) := by omega
          rw [this]; exact hs
        · intro j hj
          have : i + 1 + j = i + (j + 1) := by omega
          rw [this]; exact hf (j + 1) (by omega)
      have hr : r ≠ 0 := by omega
      have hlist : (i + 1) :: (List.range k').map (fun j => (i + 1) + j + 1)
          = (List.range (k' + 1)).map (fun j => i + j + 1) := by
        rw [List.range_succ_eq_map, List.map_cons, List.map_map]
        have hfe : (fun j => (i + 1) + j + 1) = ((fun j => i + j + 1) ∘ Nat.succ) := by
          funext j
          simp only [Function.comp_apply]
          omega
        rw [hfe]
      cases hta : t i with
      | success q => rw [hta] at hfail; simp [isFailureA] at hfail
      | httpError c reason body =>
        simp only [retryAux, hta, if_neg hr, hrec]
        rw [← hlist]
      | urlError reason =>
        simp only [retryAux, hta, if_neg hr, hrec]
        rw [← hlist]

theorem retryAux_allFail (t : Nat → Attempt) :
    ∀ (r i : Nat), 0 < r → (∀ j, j < r → isFailureA (t (i + j)) = true) →
      retryAux t i r = ⟨.error (terminalErr (t (i + (r - 1)))),
        (List.range (r - 1)).map (fun j => i + j + 1), r⟩ := by
  intro r
  induction r with
  | zero => intro i h; omega
  | succ r ih =>
    intro i _ hf
    have hfail : isFailureA (t i) = true := by
      have := hf 0 (by omega)
      simpa using this
    match r with
    | 0 =>
      cases hta : t i with
      | success q => rw [hta] at hfail; simp [isFailureA] at hfail
      | httpError c reason body => simp [retryAux, hta, terminalErr]
      | urlError reason => simp [retryAux, hta, terminalErr]
    | r' + 1 =>
      have hrec : retryAux t (i + 1) (r' + 1)
          = ⟨.error (terminalErr (t (i + (r' + 1)))),
              (List.range r').map (fun j => (i + 1) + j + 1), r' + 1⟩ := by
        have h0 := ih (i + 1) (by omega) (fun j hj => by
          have he : i + 1 + j = i + (j + 1) := by omega
          rw [he]; exact hf (j + 1) (by omega))
        have harg : (i + 1) + ((r' + 1) - 1) = i + (r' + 1) := by omega
        rw [harg] at h0
        simpa using h0
      have hidx : r' + 1 + 1 - 1 = r' + 1 := by omega
      rw [hidx]
      have hlist : (i + 1) :: (List.range r').map (fun j => (i + 1) + j + 1)
          = (List.range (r' + 1)).map (fun j => i + j + 1) := by
        rw [List.range_succ_eq_map, List.map_cons, List.map_map]
        have hfe : (fun j => (i + 1) + j + 1) = ((fun j => i + j + 1) ∘ Nat.succ) := by
          funext j
          simp only [Function.comp_apply]
          omega
        rw [hfe]
      generalize hb : r' + 1 = m at hrec hlist ⊢
      have hr : m ≠ 0 := by omega
      cases hta : t i with
      | success q => rw [hta] at hfail; simp [isFailureA] at hfail
      | httpError c reason body =>
        simp only [retryAux, hta, if_neg hr, hrec]
        rw [← hlist]
      | urlError reason =>
        simp only [retryAux, hta, if_neg hr, hrec]
        rw [← hlist]

/-! ## Concrete fixtures used by witnesses and counterexamples -/

/-- Claim C1: on both dispatch paths, a pre-loop-successful call runs the
shared retry loop, and that loop (attempts numbered from 0) sleeps
`1 * (attemptIndex + 1)` seconds after each failing non-last attempt, on
the last attempt raises the terminal error carrying status code, reason
and body (when available), and returns immediately on the first success. -/
theorem claim_C1 (dss : List (String × DS)) (name timeRange : String) (d : DS)
    (t : Nat → Attempt) (n : Nat) (ft : String × String)
    (hds : lookupDS dss name = some d)
    (htr : parse_time_range timeRange = .ok ft)
    (hn : 0 < n) :
    query_prometheus_direct dss name (n : Int) t = retryLoop t (n : Int)
    ∧ query_prometheus dss name timeRange (n : Int) t = retryLoop t (n : Int)
    ∧ (∀ i p, i < n → t i = .success p →
        (∀ j, j < i → isFailureA (t j) = true) →
        retryLoop t (n : Int)
          = ⟨.ok (some p), (List.range i).map (fun j => j + 1), i + 1⟩)
    ∧ ((∀ j, j < n → isFailureA (t j) = true) →
        retryLoop t (n : Int) = ⟨.error (terminalErr (t (n - 1))),
          (List.range (n - 1)).map (fun j => j + 1), n⟩) := by
  have htn : ((n : Int)).toNat = n := by omega
  refine ⟨?_, ?_, ?_, ?_⟩
  · simp [query_prometheus_direct, hds]
  · simp [query_prometheus, get_datasource_uid, hds, htr]
  · intro i p hi hs hf
    unfold retryLoop
    rw [htn]
    have h2 := retryAux_success t n 0 i p hi (by simpa using hs)
      (fun j hj => by simpa using hf j hj)
    rw [h2]
    have hfe : (fun j => 0 + j + 1) = (fun j : Nat => j + 1) := by
      funext j
      omega
    simp [hfe]
  · intro hf
    unfold retryLoop
    rw [htn]
    have h2 := retryAux_allFail t n 0 hn (fun j hj => by simpa using hf j hj)
    rw [h2]
    have hfe : (fun j => 0 + j + 1) = (fun j : Nat => j + 1) := by
      funext j
      omega
    simp [hfe]

/-- Witness for C1: with `maxRetries = 3` and a transport failing twice
then succeeding, both paths run the loop, which succeeds on the third
attempt having slept 1s then 2s. -/
theorem claim_C1_witness :
    query_prometheus_direct dssA "A" ((3 : Nat) : Int) twC1
      = retryLoop twC1 ((3 : Nat) : Int)
    ∧ retryLoop twC1 ((3 : Nat) : Int) = ⟨.ok (some (J.int 7)), [1, 2], 3⟩ := by
  have h := claim_C1 dssA "A" "1h" ⟨"uid-a", some 1⟩ twC1 3 ("now-1h", "now")
    rfl rfl (by norm_num)
  refine ⟨h.1, ?_⟩
  have h3 := h.2.2.1 2 (J.int 7) (by norm_num) rfl (by decide)
  simpa using h3

/-- Claim C3: the code comment says a range already in Grafana format
(starting with `now`) is recognized, but instead of passing it through
unmodified the code returns `"now-" +` the substring after `"now"`,
mangling `"now-1h"` into `"now--1h"`. -/
theorem claim_C3_bug :
    parse_time_range "now-1h" = .ok ("now--1h", "now")
    ∧ ("now--1h" : String) ≠ "now-1h" := ⟨rfl, by decide⟩

/-- Claim C6 (amended): an unknown datasource name fails immediately on
every path — zero transport attempts, no sleeps — but only the gateway
paths (which go through `get_datasource_uid`) raise the `KeyError`
listing the available names; the direct path raises a bare `KeyError`
carrying just the requested name. -/
theorem claim_C6 (dss : List (String × DS)) (name : String)
    (h : lookupDS dss name = none) :
    (∀ (n : Int) (t : Nat → Attempt),
      query_prometheus_direct dss name n t = ⟨.error (.keyError name), [], 0⟩)
    ∧ (∀ (n : Int) (t : Nat → Attempt) (tr : String),
      query_prometheus dss name tr n t
        = ⟨.error (.keyError (dsNotFoundMsg dss name)), [], 0⟩)
    ∧ (∀ (n : Int) (t : Nat → Attempt),
      query_prometheus_absolute dss name n t
        = ⟨.error (.keyError (dsNotFoundMsg dss name)), [], 0⟩) := by
  refine ⟨?_, ?_, ?_⟩
  · intro n t
    simp [query_prometheus_direct, h]
  · intro n t tr
    simp [query_prometheus, get_datasource_uid, h]
  · intro n t
    simp [query_prometheus_absolute, get_datasource_uid, h]

/-- Witness for C6 at a concrete mapping and name. -/
theorem claim_C6_witness :
    query_prometheus_direct dssA "B" 3 tConn = ⟨.error (.keyError "B"), [], 0⟩
    ∧ query_prometheus dssA "B" "1h" 3 tConn
      = ⟨.error (.keyError (dsNotFoundMsg dssA "B")), [], 0⟩ := by
  have h := claim_C6 dssA "B" rfl
  exact ⟨h.1 3 tConn, h.2.1 3 tConn "1h"⟩

/-- Counterexample for C6 as stated: on the direct path the failure for
the unknown name `"B"` is a bare `KeyError "B"`; its message is not the
"Available datasources" listing the claim requires of both paths. -/
theorem claim_C6_counterexample :
    query_prometheus_direct dssA "B" 3 tConn = ⟨.error (.keyError "B"), [], 0⟩
    ∧ "B" ≠ "Datasource \x27B\x27 not found.\nAvailable datasources: A"
    ∧ dsNotFoundMsg dssA "B"
      = "Datasource \x27B\x27 not found.\nAvailable datasources: A" :=
  ⟨rfl, by decide, rfl⟩

/-- Claim C9 (amended): when the pre-loop steps succeed (the datasource
name resolves and, on the gateway path, the time range parses), a call
with `max_retries ≤ 0` returns `None` having made no transport attempt
and no sleep. -/
theorem claim_C9 (dss : List (String × DS)) (name : String) (d : DS)
    (timeRange : String) (ft : String × String) (t : Nat → Attempt) (n : Int)
    (hn : n ≤ 0) (hds : lookupDS dss name = some d)
    (htr : parse_time_range timeRange = .ok ft) :
    query_prometheus_direct dss name n t = ⟨.ok none, [], 0⟩
    ∧ query_prometheus dss name timeRange n t = ⟨.ok none, [], 0⟩
    ∧ query_prometheus_absolute dss name n t = ⟨.ok none, [], 0⟩ := by
  have h0 : n.toNat = 0 := by omega
  have hloop : retryLoop t n = ⟨.ok none, [], 0⟩ := by
    unfold retryLoop
    rw [h0]
    rfl
  refine ⟨?_, ?_, ?_⟩
  · simp [query_prometheus_direct, hds, hloop]
  · simp [query_prometheus, get_datasource_uid, hds, htr, hloop]
  · simp [query_prometheus_absolute, get_datasource_uid, hds, hloop]

/-- Witness for C9 at `max_retries = 0`. -/
theorem claim_C9_witness :
    query_prometheus_direct dssA "A" 0 tConn = ⟨.ok none, [], 0⟩
    ∧ query_prometheus dssA "A" "1h" 0 tConn = ⟨.ok none, [], 0⟩ := by
  have h := claim_C9 dssA "A" ⟨"uid-a", some 1⟩ "1h" ("now-1h", "now") tConn 0
    (by norm_num) rfl rfl
  exact ⟨h.1, h.2.1⟩

/-- Counterexample for C9 as stated: with `max_retries = 0` but an
unknown datasource name, the direct path raises a `KeyError` instead of
returning `None` — the claim's "without raising" does not hold of every
call. -/
theorem claim_C9_counterexample :
    query_prometheus_direct [] "X" 0 tConn = ⟨.error (.keyError "X"), [], 0⟩ := rfl

/-- Claim C10 (amended): for a non-`now` input, `_parse_time_range`
returns the default window whenever the stripped string is nonempty with
a non-unit last character, but a whitespace-only input strips to the
empty string and raises `IndexError`, which `query_prometheus`
propagates before any transport attempt — the parser is not total over
all nonempty strings. -/
theorem claim_C10 (s : String)
    (hnow : ("now".data).isPrefixOf s.data = false) :
    (pyStripChars s.data = [] →
      parse_time_range s = .error (.indexError "string index out of range"))
    ∧ (∀ c, (pyStripChars s.data).getLast? = some c → isDurationUnit c = false →
        parse_time_range s = .ok ("now-1h", "now"))
    ∧ (∀ dss name d (n : Int) (t : Nat → Attempt), lookupDS dss name = some d →
        pyStripChars s.data = [] →
        query_prometheus dss name s n t
          = ⟨.error (.indexError "string index out of range"), [], 0⟩) := by
  refine ⟨?_, ?_, ?_⟩
  · intro he
    simp [parse_time_range, hnow, he]
  · intro c hc hu
    simp [parse_time_range, hnow, hc, hu]
  · intro dss name d n t hds he
    simp [query_prometheus, get_datasource_uid, hds, parse_time_range, hnow, he]

/-- Witness for C10: the whitespace-only input raises; a junk input with
a non-unit last character silently gets the default window. -/
theorem claim_C10_witness :
    parse_time_range " " = .error (.indexError "string index out of range")
    ∧ parse_time_range "24x" = .ok ("now-1h", "now") :=
  ⟨(claim_C10 " " rfl).1 rfl, (claim_C10 "24x" rfl).2.1 'x' rfl rfl⟩

/-- Counterexample for C10 as stated: `" "` is a nonempty string that
does not begin with `now`, yet the parser raises `IndexError` rather
than returning the default window. -/
theorem claim_C10_counterexample :
    parse_time_range " " = .error (.indexError "string index out of range")
    ∧ (" " : String) ≠ "" := ⟨rfl, by decide⟩

/-- A duration-unit character is not whitespace. -/
theorem unit_not_ws (u : Char) (k : Nat) (h : unitSeconds u = some k) :
    u.isWhitespace = false := by
  unfold unitSeconds at h
  split_ifs at h with h1 h2 h3 h4 h5
  · rw [beq_iff_eq] at h1; subst h1; decide
  · rw [beq_iff_eq] at h2; subst h2; decide
  · rw [beq_iff_eq] at h3; subst h3; decide
  · rw [beq_iff_eq] at h4; subst h4; decide
  · rw [beq_iff_eq] at h5; subst h5; decide

/-- Claim C4: on the `_parse_duration_to_seconds` grammar —
`<digits><unit>` yields `n × unitSeconds`; an all-digit string yields its
raw value as seconds; the empty string, a prefix `int()` cannot parse
before a unit letter, and a unitless string `int()` cannot parse all
fail (IndexError for the empty string, ValueError otherwise — both the
`InvalidDuration` failure of the specification's taxonomy). -/
theorem claim_C4 :
    (∀ (ds : List Char) (u : Char) (k : Nat), ds ≠ [] →
      ds.all Char.isDigit = true → unitSeconds u = some k →
      parse_duration_to_seconds (String.mk (ds ++ [u]))
        = .ok ((digitsVal ds : Int) * (k : Int)))
    ∧ (∀ (ds : List Char), ds ≠ [] → ds.all Char.isDigit = true →
      parse_duration_to_seconds (String.mk ds) = .ok ((digitsVal ds : Int)))
    ∧ parse_duration_to_seconds ""
        = .error (.indexError "string index out of range")
    ∧ (∀ (l : List Char) (u : Char) (k : Nat), unitSeconds u = some k →
      pyStripChars (l ++ [u]) = l ++ [u] → pyIntCore l = none →
      parse_duration_to_seconds (String.mk (l ++ [u])) = .error .valueError)
    ∧ (∀ (l : List Char) (c : Char), pyStripChars l = l → l.getLast? = some c →
      unitSeconds c = none → pyIntCore l = none →
      parse_duration_to_seconds (String.mk l) = .error .valueError) := by
  refine ⟨?_, ?_, rfl, ?_, ?_⟩
  · intro ds u k hne hdig hu
    have hstrip : pyStripChars (ds ++ [u]) = ds ++ [u] := by
      apply pyStripChars_id
      intro c hc
      rcases List.mem_append.mp hc with hm | hm
      · exact not_ws_of_digit c (List.all_eq_true.mp hdig c hm)
      · rw [List.mem_singleton.mp hm]
        exact unit_not_ws u k hu
    simp only [parse_duration_to_seconds, parse_duration_core, hstrip,
      List.getLast?_concat, List.dropLast_concat, hu,
      pyIntCore_digits ds hne hdig]
  · intro ds hne hdig
    have hstrip : pyStripChars ds = ds := by
      apply pyStripChars_id
      intro c hc
      exact not_ws_of_digit c (List.all_eq_true.mp hdig c hc)
    have hlast : ds.getLast? = some (ds.getLast hne) := List.getLast?_eq_getLast ds hne
    have hlastdig : (ds.getLast hne).isDigit = true :=
      List.all_eq_true.mp hdig _ (List.getLast_mem hne)
    simp only [parse_duration_to_seconds, parse_duration_core, hstrip, hlast,
      unitSeconds_none_of_digit _ hlastdig, pyIntCore_digits ds hne hdig]
  · intro l u k hu hstrip hint
    simp only [parse_duration_to_seconds, parse_duration_core, hstrip,
      List.getLast?_concat, List.dropLast_concat, hu, hint]
  · intro l c hstrip hlast hc hint
    simp only [parse_duration_to_seconds, parse_duration_core, hstrip, hlast,
      hc, hint]

/-- Witness for C4 on concrete durations: `"15m"`, `"120"`, `""`,
`"xh"` and `"abc"`. -/
theorem claim_C4_witness :
    parse_duration_to_seconds "15m" = .ok 900
    ∧ parse_duration_to_seconds "120" = .ok 120
    ∧ parse_duration_to_seconds "" = .error (.indexError "string index out of range")
    ∧ parse_duration_to_seconds "xh" = .error .valueError
    ∧ parse_duration_to_seconds "abc" = .error .valueError := by
  have h := claim_C4
  refine ⟨?_, ?_, h.2.2.1, ?_, ?_⟩
  · have ha := h.1 ['1', '5'] 'm' 60 (by decide) (by decide) (by decide)
    simpa using ha
  · have hb := h.2.1 ['1', '2', '0'] (by decide) (by decide)
    simpa using hb
  · have hd := h.2.2.2.1 ['x'] 'h' 3600 (by decide) (by decide) (by decide)
    simpa using hd
  · have he := h.2.2.2.2 ['a', 'b', 'c'] 'c' (by decide) (by decide) (by decide) (by decide)
    simpa using he

/-- A successful string-subscript implies the `in` test succeeds. -/
theorem jContains_true_of_subscrS (r : J) (k : String) (v : J)
    (h : jSubscrS r k = .ok v) : jContains r k = .ok true := by
  cases r with
  | obj fs =>
    simp only [jSubscrS] at h
    cases hfind : fs.find? (fun p => p.1 == k) with
    | none => rw [hfind] at h; exact absurd h (by simp)
    | some p =>
      simp only [jContains]
      have hmem := List.mem_of_find?_eq_some hfind
      have hp := List.find?_some hfind
      have hany : fs.any (fun p => p.1 == k) = true := List.any_eq_true.mpr ⟨p, hmem, hp⟩
      rw [hany]
  | null => exact absurd h (by simp [jSubscrS])
  | bool b => exact absurd h (by simp [jSubscrS])
  | int n => exact absurd h (by simp [jSubscrS])
  | str s => exact absurd h (by simp [jSubscrS])
  | arr xs => exact absurd h (by simp [jSubscrS])

/-- Claim C2 (amended): a payload in none of the three recognized shapes
does not yield a payload-retaining malformed-response failure: a missing
`results` key yields the same `"No data"` as an empty payload, a
`results.A` entry with neither `frames` nor `series` yields
`"Unknown response format"` (payload not retained), and only a missing
`A` entry yields an `"Error formatting data"` message embedding the
dumped payload; recognized shapes with empty inner arrays yield
`"No data points"`. -/
theorem claim_C2 :
    (∀ (fmtMs : Int → String) (r : J) (ft : String), truthy r = false →
      format_series_data fmtMs r ft = .ok "No data")
    ∧ (∀ (fmtMs : Int → String) (r : J) (ft : String), truthy r = true →
      jContains r "results" = .ok false →
      format_series_data fmtMs r ft = .ok "No data")
    ∧ (∀ (fmtMs : Int → String) (r rs rd : J) (ft : String), truthy r = true →
      ft ≠ "json" →
      jSubscrS r "results" = .ok rs → jSubscrS rs "A" = .ok rd →
      jContains rd "frames" = .ok false → jContains rd "series" = .ok false →
      format_series_data fmtMs r ft = .ok "Unknown response format")
    ∧ (∀ (fmtMs : Int → String) (r rs rd fr : J) (ft : String), truthy r = true →
      ft ≠ "json" →
      jSubscrS r "results" = .ok rs → jSubscrS rs "A" = .ok rd →
      jContains rd "frames" = .ok true → jSubscrS rd "frames" = .ok fr →
      truthy fr = false →
      format_series_data fmtMs r ft = .ok "No data points")
    ∧ (∀ (fmtMs : Int → String) (r rs rd se : J) (ft : String), truthy r = true →
      ft ≠ "json" →
      jSubscrS r "results" = .ok rs → jSubscrS rs "A" = .ok rd →
      jContains rd "frames" = .ok false → jContains rd "series" = .ok true →
      jSubscrS rd "series" = .ok se → truthy se = false →
      format_series_data fmtMs r ft = .ok "No data points")
    ∧ (∀ (fmtHMS fmtMs : Int → String) (r data res : J) (ft : String)
        (ms mp : Int),
      truthy r = true → jGetD r "status" .null = .ok (J.str "success") →
      jGetD r "data" (.obj []) = .ok data →
      jGetD data "result" (.arr []) = .ok res → truthy res = false →
      format_prometheus_result fmtHMS fmtMs r ft ms mp = .ok "No data points")
    ∧ (∀ (fmtMs : Int → String) (r rs : J) (ft : String), truthy r = true →
      ft ≠ "json" →
      jSubscrS r "results" = .ok rs → jSubscrS rs "A" = .error (.keyError "A") →
      format_series_data fmtMs r ft
        = .ok ("Error formatting data: " ++ pyReprStr "A" ++ "\n" ++ jdumps r)) := by
  refine ⟨?_, ?_, ?_, ?_, ?_, ?_, ?_⟩
  · intro fmtMs r ft ht
    simp [format_series_data, ht]
  · intro fmtMs r ft ht hc
    simp [format_series_data, ht, hc]
  · intro fmtMs r rs rd ft ht hft hrs hrd hfr hse
    have hc := jContains_true_of_subscrS r "results" rs hrs
    have hftb : (ft == "json") = false := beq_eq_false_iff_ne.mpr hft
    simp [format_series_data, ht, hc, hftb, fsdBody, hrs, hrd, hfr, hse, bindE_ok, pureE]
  · intro fmtMs r rs rd fr ft ht hft hrs hrd hfr hframes htr
    have hc := jContains_true_of_subscrS r "results" rs hrs
    have hftb : (ft == "json") = false := beq_eq_false_iff_ne.mpr hft
    simp [format_series_data, ht, hc, hftb, fsdBody, hrs, hrd, hfr, hframes,
      htr, bindE_ok, pureE]
  · intro fmtMs r rs rd se ft ht hft hrs hrd hfr hse hseries htr
    have hc := jContains_true_of_subscrS r "results" rs hrs
    have hftb : (ft == "json") = false := beq_eq_false_iff_ne.mpr hft
    simp [format_series_data, ht, hc, hftb, fsdBody, hrs, hrd, hfr, hse,
      hseries, htr, bindE_ok, pureE]
  · intro fmtHMS fmtMs r data res ft ms mp ht hst hdata hres htr
    simp [format_prometheus_result, ht, hst, hdata, hres, htr, jEqStr, bindE_ok, pureE]
  · intro fmtMs r rs ft ht hft hrs hrd
    have hc := jContains_true_of_subscrS r "results" rs hrs
    have hftb : (ft == "json") = false := beq_eq_false_iff_ne.mpr hft
    simp [format_series_data, ht, hc, hftb, fsdBody, hrs, hrd, bindE_ok,
      bindE_error, pureE]

/-- Witness for C2 across the branches: empty payload, missing `results`
key, unrecognized `results.A`, empty frames, empty series, native
success with no result, and missing `A` entry. -/
theorem claim_C2_witness :
    format_series_data (fun _ => "") (J.obj []) "table" = .ok "No data"
    ∧ format_series_data (fun _ => "") (J.obj [("foo", J.int 1)]) "table"
      = .ok "No data"
    ∧ format_series_data (fun _ => "")
        (J.obj [("results", J.obj [("A", J.obj [("x", J.int 1)])])]) "table"
      = .ok "Unknown response format"
    ∧ format_series_data (fun _ => "")
        (J.obj [("results", J.obj [("A", J.obj [("frames", J.arr [])])])]) "table"
      = .ok "No data points"
    ∧ format_series_data (fun _ => "")
        (J.obj [("results", J.obj [("A", J.obj [("series", J.arr [])])])]) "table"
      = .ok "No data points"
    ∧ format_prometheus_result (fun _ => "") (fun _ => "")
        (J.obj [("status", J.str "success")]) "table" 20 10
      = .ok "No data points"
    ∧ format_series_data (fun _ => "")
        (J.obj [("results", J.obj [("B", J.int 1)])]) "table"
      = .ok ("Error formatting data: " ++ pyReprStr "A" ++ "\n"
          ++ jdumps (J.obj [("results", J.obj [("B", J.int 1)])])) := by
  refine ⟨claim_C2.1 _ _ _ rfl,
    claim_C2.2.1 _ _ _ rfl rfl,
    claim_C2.2.2.1 _ _ _ _ _ rfl (by decide) rfl rfl rfl rfl,
    claim_C2.2.2.2.1 _ _ _ _ _ _ rfl (by decide) rfl rfl rfl rfl rfl,
    claim_C2.2.2.2.2.1 _ _ _ _ _ _ rfl (by decide) rfl rfl rfl rfl rfl rfl,
    claim_C2.2.2.2.2.2.1 _ _ _ _ _ _ _ _ rfl rfl rfl rfl rfl,
    claim_C2.2.2.2.2.2.2 _ _ _ _ rfl (by decide) rfl rfl⟩

/-- Counterexample for C2 as stated: the unrecognized payload
`{"foo": 1}` yields the same `"No data"` as the degenerate empty payload
on both formatters — an output indistinguishable from "no payload" that
retains nothing of the raw payload, not a malformed-response failure. -/
theorem claim_C2_counterexample :
    format_series_data (fun _ => "") (J.obj [("foo", J.int 1)]) "table"
      = .ok "No data"
    ∧ format_series_data (fun _ => "") (J.obj []) "table" = .ok "No data"
    ∧ format_prometheus_result (fun _ => "") (fun _ => "")
        (J.obj [("foo", J.int 1)]) "table" 20 10 = .ok "No data" :=
  ⟨rfl, rfl, rfl⟩

/-- On well-formed single-instance series, the native `simple` loop
produces one `name: latest` line per series. -/
theorem nativeSimpleLines_mk (ss : List (String × List (Int × J)))
    (h : ∀ p ∈ ss, p.1 ≠ "" ∧ p.2 ≠ []) :
    nativeSimpleLines (ss.map (fun s => mkNativeSeries s.1 s.2))
      = .ok (ss.map simpleLineOf) := by
  induction ss with
  | nil => rfl
  | cons p rest ih =>
    obtain ⟨hname, hpts⟩ := h p (by simp)
    have h1 : jGetD (mkNativeSeries p.1 p.2) "metric" (.obj [])
        = .ok (J.obj [("instance", .str p.1)]) := rfl
    have h2 : jGetD (mkNativeSeries p.1 p.2) "values" (.arr [])
        = .ok (.arr (p.2.map (fun q => J.arr [.int q.1, q.2]))) := rfl
    have h3 : jGetD (J.obj [("instance", .str p.1)]) "instance" .null
        = .ok (.str p.1) := rfl
    have h4 : jGetD (J.obj [("instance", .str p.1)]) "job" .null
        = .ok .null := rfl
    have hinst : truthy (.str p.1) = true := by
      have he : p.1.isEmpty = false := by
        rw [Bool.eq_false_iff]
        intro hc
        exact hname ((String.isEmpty_iff p.1).mp hc)
      simp [truthy, he]
    have hmapne : p.2.map (fun q => J.arr [.int q.1, q.2]) ≠ [] := by
      simp [hpts]
    have hvals : truthy (.arr (p.2.map (fun q => J.arr [.int q.1, q.2]))) = true := by
      simp [truthy, hpts]
    obtain ⟨q, hq⟩ : ∃ q, p.2.getLast? = some q := by
      cases hg : p.2.getLast? with
      | none => exact absurd (List.getLast?_eq_none_iff.mp hg) hpts
      | some q => exact ⟨q, rfl⟩
    have hlast : jSubscrIdx (.arr (p.2.map (fun q => J.arr [.int q.1, q.2]))) (-1)
        = .ok (.arr [.int q.1, q.2]) := by
      rw [jSubscrIdx_arr_neg_one _ hmapne, List.getLast?_map, hq]
      rfl
    simp only [List.map_cons, nativeSimpleLines, h1, h2, h3, h4, bindE_ok,
      hinst, if_true, hvals, hlast, ih (fun x hx => h x (by simp [hx])), pureE,
      unpack2]
    simp [simpleLineOf, hq, pyStrJ]

/-- Claim C8: on a native payload of 25 series (each with a nonempty
instance name and at least one point), `simple` mode with
`max_series = 20` emits the 20 `name: latest` lines for the first 20
series followed by the single summary line `"... and 5 more series"`. -/
theorem claim_C8 (fH fM : Int → String) (ss : List (String × List (Int × J)))
    (hlen : ss.length = 25)
    (hws : ∀ p ∈ ss, p.1 ≠ "" ∧ p.2 ≠ []) :
    format_prometheus_result fH fM (mkNativePayload ss) "simple" 20 10
      = .ok (String.intercalate "\n"
          ((ss.take 20).map simpleLineOf ++ ["... and 5 more series"])) := by
  have hres : jGetD (J.obj [("result",
      J.arr (ss.map (fun s => mkNativeSeries s.1 s.2)))]) "result" (.arr [])
      = .ok (.arr (ss.map (fun s => mkNativeSeries s.1 s.2))) := rfl
  have hne : ss ≠ [] := by
    intro hc
    rw [hc] at hlen
    simp at hlen
  have htr : truthy (.arr (ss.map (fun s => mkNativeSeries s.1 s.2))) = true := by
    simp [truthy, hne]
  have hslice : pySliceToJ (.arr (ss.map (fun s => mkNativeSeries s.1 s.2))) 20
      = .ok ((ss.take 20).map (fun s => mkNativeSeries s.1 s.2)) := by
    have h20 : (20 : Int) = ((20 : Nat) : Int) := by norm_num
    simp only [pySliceToJ, h20, pySliceTo_nat, List.map_take]
  have hlines := nativeSimpleLines_mk (ss.take 20)
    (fun x hx => hws x (List.mem_of_mem_take hx))
  have hlen2 : (ss.map (fun s => mkNativeSeries s.1 s.2)).length = 25 := by
    simp [hlen]
  simp only [format_prometheus_result, mkNativePayload]
  rw [if_neg (by simp [truthy])]
  have hst : jGetD (J.obj [("status", J.str "success"),
      ("data", J.obj [("result", J.arr (ss.map (fun s => mkNativeSeries s.1 s.2)))])])
      "status" .null = .ok (J.str "success") := rfl
  have hdata : jGetD (J.obj [("status", J.str "success"),
      ("data", J.obj [("result", J.arr (ss.map (fun s => mkNativeSeries s.1 s.2)))])])
      "data" (.obj [])
      = .ok (J.obj [("result", J.arr (ss.map (fun s => mkNativeSeries s.1 s.2)))]) := rfl
  rw [hst]
  have hjson : (("simple" : String) == "json") = false := rfl
  have hsimp : (("simple" : String) == "simple") = true := rfl
  simp only [jEqStr, beq_self_eq_true, if_true, hdata, bindE_ok, hres, htr,
    Bool.not_true, if_false, hjson, hsimp, Bool.false_eq_true, jLen, hlen2,
    hslice, hlines, pureE]
  rw [if_pos (by norm_num)]
  have h5 : ((25 : Nat) : Int) - 20 = 5 := by norm_num
  rw [h5]
  rfl

/-- Witness for C8 at a concrete 25-series payload. -/
theorem claim_C8_witness :
    format_prometheus_result (fun _ => "") (fun _ => "")
        (mkNativePayload ssC8) "simple" 20 10
      = .ok (String.intercalate "\n"
          ((ssC8.take 20).map simpleLineOf ++ ["... and 5 more series"])) :=
  claim_C8 (fun _ => "") (fun _ => "") ssC8 rfl (by
    intro p hp
    simp only [ssC8, List.mem_map, List.mem_range] at hp
    obtain ⟨i, _, rfl⟩ := hp
    refine ⟨?_, by simp⟩
    intro hc
    have hlenc := congrArg String.length hc
    simp [String.length_append] at hlenc
    exact (by decide : ¬("s".length = 0)) hlenc.1)

theorem mapE_map {α β γ : Type} (f : β → Except PyErr γ) (g : α → β) :
    ∀ (l : List α), mapE f (l.map g) = mapE (fun x => f (g x)) l := by
  intro l
  induction l with
  | nil => rfl
  | cons a as ih => simp only [List.map_cons, mapE, ih]

theorem mapE_map_ok_of {α β γ : Type} (f : β → Except PyErr γ) (g : α → β)
    (h : α → γ) : ∀ (l : List α), (∀ a ∈ l, f (g a) = .ok (h a)) →
      mapE f (l.map g) = .ok (l.map h) := by
  intro l
  induction l with
  | nil => intro _; rfl
  | cons a as ih =>
    intro hh
    simp only [List.map_cons, mapE, hh a (by simp), bindE_ok,
      ih (fun x hx => hh x (by simp [hx]))]
    rfl

theorem flatten_singleton {α β : Type} (g : α → β) :
    ∀ (l : List α), (l.map (fun x => [g x])).flatten = l.map g := by
  intro l
  induction l with
  | nil => rfl
  | cons a as ih => simp [ih]

theorem getD_map_int (times : List Int) (i : Nat) (h : i < times.length) :
    (times.map J.int).getD i .null = J.int (times.getD i 0) := by
  rw [List.getD_eq_getElem _ _ (by simpa using h), List.getElem_map,
    List.getD_eq_getElem _ _ h]

/-- The gateway-frames table path on a single frame whose timestamp
column is no longer than its value column: rows pair the columns
positionally over the last (up to) 10 timestamp indices, the name is the
declared one or the placeholder, and numeric values get two decimals. -/
theorem frames_table_general (fM : Int → String) (nm : Option String)
    (times : List Int) (vals : List J) (h : times.length ≤ vals.length) :
    format_series_data fM (mkFramesPayload [mkFrame nm times vals]) "table"
      = .ok (String.intercalate "\n" (seriesTableHeader
          ++ (takeLastL 10 (times.zip vals)).map
              (framesRowOf fM (frameNameOf nm)))) := by
  have hschema : jGetD (mkFrame nm times vals) "schema" (.obj [])
      = .ok (match nm with
        | some s => J.obj [("name", J.str s)]
        | none => J.obj []) := by
    cases nm <;> rfl
  have hname : ∀ (o : Option String), jGetD (match o with
        | some s => J.obj [("name", J.str s)]
        | none => J.obj []) "name" (.str "Series")
      = .ok (.str (frameNameOf o)) := by
    intro o
    cases o <;> rfl
  have hdata : jGetD (mkFrame nm times vals) "data" (.obj [])
      = .ok (J.obj [("values", J.arr [J.arr (times.map J.int), J.arr vals])]) := by
    cases nm <;> rfl
  have hzlen : (times.zip vals).length = times.length := by
    rw [List.length_zip]
    omega
  have hbody : ∀ i ∈ List.range' (times.length - 10)
      (times.length - (times.length - 10)),
      (do
        let tj ← jSubscrIdx (J.arr (times.map J.int)) (i : Int)
        let tn ← asNumberMs tj
        let vj ← jSubscrIdx (J.arr vals) (i : Int)
        pure ("| " ++ fM tn ++ " | " ++ pyStrJ (J.str (frameNameOf nm)) ++ " | "
          ++ (if isPyNumeric vj then fmt2f vj else pyStrJ vj) ++ " |"))
        = Except.ok (framesRowOf fM (frameNameOf nm)
            ((times.zip vals).getD i (0, J.null))) := by
    intro i hi
    have hiN : i < times.length := by
      have h2 := (List.mem_range'_1.mp hi).2
      omega
    have ht1 : jSubscrIdx (J.arr (times.map J.int)) (i : Int)
        = .ok (J.int (times.getD i 0)) := by
      rw [jSubscrIdx_arr_nat _ i (by simpa using hiN), getD_map_int _ _ hiN]
    have hv1 : jSubscrIdx (J.arr vals) (i : Int)
        = .ok (vals.getD i .null) :=
      jSubscrIdx_arr_nat _ i (by omega)
    have hzip : (times.zip vals).getD i (0, J.null)
        = (times.getD i 0, vals.getD i .null) := by
      rw [List.getD_eq_getElem _ _ (by rw [hzlen]; omega), List.getElem_zip,
        List.getD_eq_getElem _ _ hiN, List.getD_eq_getElem _ _ (by omega)]
    rw [ht1, bindE_ok]
    simp only [asNumberMs, bindE_ok, hv1, pureE, hzip, framesRowOf, valueCell,
      pyStrJ]
  have hrows : framesTableRows fM [mkFrame nm times vals]
      = .ok ((takeLastL 10 (times.zip vals)).map
          (framesRowOf fM (frameNameOf nm))) := by
    simp only [framesTableRows, hschema, hname nm, hdata, bindE_ok]
    have hval : jGetD (J.obj [("values",
        J.arr [J.arr (times.map J.int), J.arr vals])]) "values" (.arr [])
        = .ok (J.arr [J.arr (times.map J.int), J.arr vals]) := rfl
    simp only [hval, bindE_ok, jLen]
    rw [if_pos (by simp)]
    have ht0 : jSubscrIdx (J.arr [J.arr (times.map J.int), J.arr vals]) 0
        = .ok (J.arr (times.map J.int)) := rfl
    have ht1 : jSubscrIdx (J.arr [J.arr (times.map J.int), J.arr vals]) 1
        = .ok (J.arr vals) := rfl
    simp only [ht0, ht1, bindE_ok, List.length_map]
    rw [mapE_ok_of _ _ _ hbody, bindE_ok]
    have hmm : (List.range' (times.length - 10)
          (times.length - (times.length - 10))).map
          (fun i => framesRowOf fM (frameNameOf nm)
            ((times.zip vals).getD i (0, J.null)))
        = ((List.range' (times.length - 10)
            (times.length - (times.length - 10))).map
            (fun i => (times.zip vals).getD i (0, J.null))).map
            (framesRowOf fM (frameNameOf nm)) := by
      rw [List.map_map]
      rfl
    rw [hmm]
    have hget := range'_map_getD (times.zip vals) (0, J.null)
      (times.length - (times.length - 10)) (times.length - 10)
      (by rw [hzlen]) (by rw [hzlen]; omega)
    rw [hget]
    have hdrop : (times.zip vals).drop (times.length - 10)
        = takeLastL 10 (times.zip vals) := by
      simp only [takeLastL, hzlen]
    rw [hdrop]
    simp [mapE, pureE]
  have hfsd : fsdBody fM (mkFramesPayload [mkFrame nm times vals]) "table"
      = .ok (String.intercalate "\n" (seriesTableHeader
          ++ (takeLastL 10 (times.zip vals)).map
              (framesRowOf fM (frameNameOf nm)))) := by
    have hres : jSubscrS (mkFramesPayload [mkFrame nm times vals]) "results"
        = .ok (.obj [("A", .obj [("frames", .arr [mkFrame nm times vals])])]) := rfl
    have hA : jSubscrS (J.obj [("A",
          J.obj [("frames", J.arr [mkFrame nm times vals])])]) "A"
        = .ok (.obj [("frames", .arr [mkFrame nm times vals])]) := rfl
    have hcf : jContains (J.obj [("frames", J.arr [mkFrame nm times vals])])
        "frames" = .ok true := rfl
    have hgf : jSubscrS (J.obj [("frames", J.arr [mkFrame nm times vals])])
        "frames" = .ok (.arr [mkFrame nm times vals]) := rfl
    simp only [fsdBody, hres, hA, hcf, hgf, bindE_ok, if_true]
    rw [if_neg (by simp [truthy])]
    have hiter : asIterList (J.arr [mkFrame nm times vals])
        = .ok [mkFrame nm times vals] := rfl
    simp only [hiter, bindE_ok]
    rw [if_neg (by decide)]
    rw [hrows, bindE_ok]
    rfl
  have htp : truthy (mkFramesPayload [mkFrame nm times vals]) = true := rfl
  have hcr : jContains (mkFramesPayload [mkFrame nm times vals]) "results"
      = .ok true := rfl
  simp only [format_series_data, htp, Bool.not_true, if_false, hcr, hfsd]
  rfl

theorem jSubscrIdx_arr_oob (xs : List J) (i : Nat) (h : xs.length ≤ i) :
    jSubscrIdx (.arr xs) (i : Int)
      = .error (.indexError "list index out of range") := by
  have h1 : ¬((i : Int) < 0) := by omega
  simp only [jSubscrIdx, h1, if_false]
  rw [if_neg (by omega)]

/-- The gateway-frames table path on a single frame whose value column is
strictly shorter than its timestamp column: the positional pairing walks
the timestamp indices, indexes past the value column's end, and the
caught `IndexError` yields the error string with the dumped payload —
not a truncated table. -/
theorem frames_table_indexerror (fM : Int → String) (nm : Option String)
    (times : List Int) (vals : List J) (h : vals.length < times.length) :
    format_series_data fM (mkFramesPayload [mkFrame nm times vals]) "table"
      = .ok ("Error formatting data: list index out of range\n"
          ++ jdumps (mkFramesPayload [mkFrame nm times vals])) := by
  have hschema : jGetD (mkFrame nm times vals) "schema" (.obj [])
      = .ok (match nm with
        | some s => J.obj [("name", J.str s)]
        | none => J.obj []) := by
    cases nm <;> rfl
  have hname : ∀ (o : Option String), jGetD (match o with
        | some s => J.obj [("name", J.str s)]
        | none => J.obj []) "name" (.str "Series")
      = .ok (.str (frameNameOf o)) := by
    intro o
    cases o <;> rfl
  have hdata : jGetD (mkFrame nm times vals) "data" (.obj [])
      = .ok (J.obj [("values", J.arr [J.arr (times.map J.int), J.arr vals])]) := by
    cases nm <;> rfl
  have hbody : ∀ i ∈ List.range' (times.length - 10)
      (times.length - (times.length - 10)),
      (do
        let tj ← jSubscrIdx (J.arr (times.map J.int)) (i : Int)
        let tn ← asNumberMs tj
        let vj ← jSubscrIdx (J.arr vals) (i : Int)
        pure ("| " ++ fM tn ++ " | " ++ pyStrJ (J.str (frameNameOf nm)) ++ " | "
          ++ (if isPyNumeric vj then fmt2f vj else pyStrJ vj) ++ " |"))
        = Except.ok (("| " ++ fM (times.getD i 0) ++ " | "
            ++ pyStrJ (J.str (frameNameOf nm)) ++ " | "
            ++ (if isPyNumeric (vals.getD i .null) then fmt2f (vals.getD i .null)
                else pyStrJ (vals.getD i .null)) ++ " |"))
        ∨ (do
        let tj ← jSubscrIdx (J.arr (times.map J.int)) (i : Int)
        let tn ← asNumberMs tj
        let vj ← jSubscrIdx (J.arr vals) (i : Int)
        pure ("| " ++ fM tn ++ " | " ++ pyStrJ (J.str (frameNameOf nm)) ++ " | "
          ++ (if isPyNumeric vj then fmt2f vj else pyStrJ vj) ++ " |"))
        = Except.error (.indexError "list index out of range") := by
    intro i hi
    have hiN : i < times.length := by
      have h2 := (List.mem_range'_1.mp hi).2
      omega
    have ht1 : jSubscrIdx (J.arr (times.map J.int)) (i : Int)
        = .ok (J.int (times.getD i 0)) := by
      rw [jSubscrIdx_arr_nat _ i (by simpa using hiN), getD_map_int _ _ hiN]
    by_cases hvi : i < vals.length
    · left
      rw [ht1, bindE_ok]
      simp only [asNumberMs, bindE_ok, jSubscrIdx_arr_nat _ i hvi, pureE]
    · right
      rw [ht1, bindE_ok]
      simp only [asNumberMs, bindE_ok, jSubscrIdx_arr_oob vals i (by omega),
        bindE_error]
  have hex : ∃ i ∈ List.range' (times.length - 10)
      (times.length - (times.length - 10)),
      (do
        let tj ← jSubscrIdx (J.arr (times.map J.int)) (i : Int)
        let tn ← asNumberMs tj
        let vj ← jSubscrIdx (J.arr vals) (i : Int)
        pure ("| " ++ fM tn ++ " | " ++ pyStrJ (J.str (frameNameOf nm)) ++ " | "
          ++ (if isPyNumeric vj then fmt2f vj else pyStrJ vj) ++ " |"))
        = Except.error (.indexError "list index out of range") := by
    refine ⟨times.length - 1, ?_, ?_⟩
    · rw [List.mem_range'_1]
      omega
    · have hiN : times.length - 1 < times.length := by omega
      have ht1 : jSubscrIdx (J.arr (times.map J.int)) ((times.length - 1 : Nat) : Int)
          = .ok (J.int (times.getD (times.length - 1) 0)) := by
        rw [jSubscrIdx_arr_nat _ _ (by simpa using hiN), getD_map_int _ _ hiN]
      rw [ht1, bindE_ok]
      simp only [asNumberMs, bindE_ok,
        jSubscrIdx_arr_oob vals (times.length - 1) (by omega), bindE_error]
  have hrows : framesTableRows fM [mkFrame nm times vals]
      = .error (.indexError "list index out of range") := by
    simp only [framesTableRows, hschema, hname nm, hdata, bindE_ok]
    have hval : jGetD (J.obj [("values",
        J.arr [J.arr (times.map J.int), J.arr vals])]) "values" (.arr [])
        = .ok (J.arr [J.arr (times.map J.int), J.arr vals]) := rfl
    simp only [hval, bindE_ok, jLen]
    rw [if_pos (by simp)]
    have ht0 : jSubscrIdx (J.arr [J.arr (times.map J.int), J.arr vals]) 0
        = .ok (J.arr (times.map J.int)) := rfl
    have ht1 : jSubscrIdx (J.arr [J.arr (times.map J.int), J.arr vals]) 1
        = .ok (J.arr vals) := rfl
    simp only [ht0, ht1, bindE_ok, List.length_map]
    rw [mapE_error_of _ (fun i => ("| " ++ fM (times.getD i 0) ++ " | "
      ++ pyStrJ (J.str (frameNameOf nm)) ++ " | "
      ++ (if isPyNumeric (vals.getD i .null) then fmt2f (vals.getD i .null)
          else pyStrJ (vals.getD i .null)) ++ " |")) _ _ hbody hex, bindE_error]
  have hfsd : fsdBody fM (mkFramesPayload [mkFrame nm times vals]) "table"
      = .error (.indexError "list index out of range") := by
    have hres : jSubscrS (mkFramesPayload [mkFrame nm times vals]) "results"
        = .ok (.obj [("A", .obj [("frames", .arr [mkFrame nm times vals])])]) := rfl
    have hA : jSubscrS (J.obj [("A",
          J.obj [("frames", J.arr [mkFrame nm times vals])])]) "A"
        = .ok (.obj [("frames", .arr [mkFrame nm times vals])]) := rfl
    have hcf : jContains (J.obj [("frames", J.arr [mkFrame nm times vals])])
        "frames" = .ok true := rfl
    have hgf : jSubscrS (J.obj [("frames", J.arr [mkFrame nm times vals])])
        "frames" = .ok (.arr [mkFrame nm times vals]) := rfl
    simp only [fsdBody, hres, hA, hcf, hgf, bindE_ok, if_true]
    rw [if_neg (by simp [truthy])]
    have hiter : asIterList (J.arr [mkFrame nm times vals])
        = .ok [mkFrame nm times vals] := rfl
    simp only [hiter, bindE_ok]
    rw [if_neg (by decide)]
    rw [hrows, bindE_error]
  have htp : truthy (mkFramesPayload [mkFrame nm times vals]) = true := rfl
  have hcr : jContains (mkFramesPayload [mkFrame nm times vals]) "results"
      = .ok true := rfl
  simp only [format_series_data, htp, Bool.not_true, if_false, hcr, hfsd]
  rfl

theorem truthy_str_of_ne (s : String) (h : s ≠ "") : truthy (.str s) = true := by
  have he : s.isEmpty = false := by
    rw [Bool.eq_false_iff]
    intro hc
    exact h ((String.isEmpty_iff s).mp hc)
  simp [truthy, he]

/-- The legacy-series table path on a single named series: rows over the
last (up to) 5 points, each `[value, timestamp]` pair rendered with the
name cut to 40 characters plus an unconditional `"..."`, and numeric
values with two decimals. -/
theorem series_table_general (fM : Int → String) (nm : String)
    (pts : List (J × Int)) :
    format_series_data fM (mkSeriesPayload [mkLegacySeries nm pts]) "table"
      = .ok (String.intercalate "\n" (seriesTableHeader
          ++ (takeLastL 5 pts).map (seriesRowOf fM nm))) := by
  have hrows : seriesTableRows fM [mkLegacySeries nm pts]
      = .ok ((takeLastL 5 pts).map (seriesRowOf fM nm)) := by
    have hn : jGetD (mkLegacySeries nm pts) "name" (.str "Series")
        = .ok (.str nm) := rfl
    have hp : jGetD (mkLegacySeries nm pts) "points" (.arr [])
        = .ok (.arr (pts.map (fun p => J.arr [p.1, .int p.2]))) := rfl
    have hslice : pySliceFromJ (.arr (pts.map (fun p => J.arr [p.1, .int p.2]))) (-5)
        = .ok ((takeLastL 5 pts).map (fun p => J.arr [p.1, .int p.2])) := by
      have h5 : (-5 : Int) = -((5 : Nat) : Int) := by norm_num
      simp only [pySliceFromJ, h5, pySliceFrom_neg _ 5 (by norm_num),
        List.length_map, takeLastL]
      rw [← List.map_drop]
    simp only [seriesTableRows, hn, hp, hslice, bindE_ok]
    rw [mapE_map_ok_of (seriesPointRow fM (J.str nm))
      (fun (p : J × Int) => J.arr [p.1, J.int p.2])
      (fun p => [seriesRowOf fM nm p])
      (takeLastL 5 pts) (fun p _ => rfl), bindE_ok]
    simp only [seriesTableRows, bindE_ok, pureE, flatten_singleton,
      List.append_nil]
  have hres : jSubscrS (mkSeriesPayload [mkLegacySeries nm pts]) "results"
      = .ok (.obj [("A", .obj [("series", .arr [mkLegacySeries nm pts])])]) := rfl
  have hA : jSubscrS (J.obj [("A",
        J.obj [("series", J.arr [mkLegacySeries nm pts])])]) "A"
      = .ok (.obj [("series", .arr [mkLegacySeries nm pts])]) := rfl
  have hcf : jContains (J.obj [("series", J.arr [mkLegacySeries nm pts])])
      "frames" = .ok false := rfl
  have hcs : jContains (J.obj [("series", J.arr [mkLegacySeries nm pts])])
      "series" = .ok true := rfl
  have hgs : jSubscrS (J.obj [("series", J.arr [mkLegacySeries nm pts])])
      "series" = .ok (.arr [mkLegacySeries nm pts]) := rfl
  have hfsd : fsdBody fM (mkSeriesPayload [mkLegacySeries nm pts]) "table"
      = .ok (String.intercalate "\n" (seriesTableHeader
          ++ (takeLastL 5 pts).map (seriesRowOf fM nm))) := by
    simp only [fsdBody, hres, hA, hcf, hcs, hgs, bindE_ok, Bool.false_eq_true,
      if_false, if_true]
    rw [if_neg (by simp [truthy])]
    simp only [jLen, bindE_ok]
    rw [if_neg (by decide)]
    have hsl : pySliceToJ (J.arr [mkLegacySeries nm pts]) 10
        = .ok [mkLegacySeries nm pts] := rfl
    simp only [hsl, bindE_ok, hrows]
    rw [if_neg (by norm_num)]
    rfl
  have htp : truthy (mkSeriesPayload [mkLegacySeries nm pts]) = true := rfl
  have hcr : jContains (mkSeriesPayload [mkLegacySeries nm pts]) "results"
      = .ok true := rfl
  simp only [format_series_data, htp, Bool.not_true, if_false, hcr, hfsd]
  rfl

/-- The native table path on a single `instance`/`job`-labelled series:
rows over the last `max_points` points, the metric name
`job/instance` cut to 30 characters with no ellipsis, and values
rendered verbatim by `str()` (no two-decimal formatting). -/
theorem native_table_general (fH fM : Int → String) (inst job : String)
    (hinst : inst ≠ "") (hjob : job ≠ "") (pts : List (Int × J))
    (mp : Nat) (hmp : 0 < mp) :
    format_prometheus_result fH fM (mkNativeTablePayload inst job pts)
        "table" 20 (mp : Int)
      = .ok (String.intercalate "\n" (nativeTableHeader
          ++ (takeLastL mp pts).map (nativeRowOf fH (job ++ "/" ++ inst)))) := by
  have hrows : nativeTableRows fH (mp : Int)
      [J.obj [("metric", J.obj [("instance", J.str inst), ("job", J.str job)]),
              ("values", J.arr (pts.map (fun p => J.arr [J.int p.1, p.2])))]]
      = .ok ((takeLastL mp pts).map (nativeRowOf fH (job ++ "/" ++ inst))) := by
    have hm : jGetD (J.obj [("metric",
          J.obj [("instance", J.str inst), ("job", J.str job)]),
          ("values", J.arr (pts.map (fun p => J.arr [J.int p.1, p.2])))])
        "metric" (.obj [])
        = .ok (J.obj [("instance", J.str inst), ("job", J.str job)]) := rfl
    have hv : jGetD (J.obj [("metric",
          J.obj [("instance", J.str inst), ("job", J.str job)]),
          ("values", J.arr (pts.map (fun p => J.arr [J.int p.1, p.2])))])
        "values" (.arr [])
        = .ok (J.arr (pts.map (fun p => J.arr [J.int p.1, p.2]))) := rfl
    have hi : jGetD (J.obj [("instance", J.str inst), ("job", J.str job)])
        "instance" (.str "") = .ok (.str inst) := rfl
    have hj : jGetD (J.obj [("instance", J.str inst), ("job", J.str job)])
        "job" (.str "") = .ok (.str job) := rfl
    have hlast : nativeLastPoints (mp : Int)
        (J.arr (pts.map (fun p => J.arr [J.int p.1, p.2])))
        = .ok ((takeLastL mp pts).map (fun p => J.arr [J.int p.1, p.2])) := by
      simp only [nativeLastPoints, pySliceFrom_neg _ mp hmp, List.length_map,
        takeLastL]
      rw [← List.map_drop]
    simp only [nativeTableRows, hm, hv, hi, hj, bindE_ok,
      truthy_str_of_ne inst hinst, truthy_str_of_ne job hjob, Bool.and_self,
      if_true, hlast]
    rw [mapE_map_ok_of (nativePointRow fH (pyStrJ (J.str job) ++ "/" ++ pyStrJ (J.str inst)))
      (fun (p : Int × J) => J.arr [J.int p.1, p.2])
      (nativeRowOf fH (job ++ "/" ++ inst))
      (takeLastL mp pts) (fun p _ => rfl), bindE_ok]
    simp only [nativeTableRows, bindE_ok, pureE, List.append_nil, pyStrJ]
  have hst : jGetD (mkNativeTablePayload inst job pts) "status" .null
      = .ok (J.str "success") := rfl
  have hdata : jGetD (mkNativeTablePayload inst job pts) "data" (.obj [])
      = .ok (J.obj [("result", J.arr [J.obj [("metric",
          J.obj [("instance", J.str inst), ("job", J.str job)]),
          ("values", J.arr (pts.map (fun p => J.arr [J.int p.1, p.2])))]])]) := rfl
  simp only [format_prometheus_result]
  rw [if_neg (by simp [truthy, mkNativeTablePayload])]
  rw [hst]
  simp only [jEqStr, beq_self_eq_true, if_true, hdata, bindE_ok]
  have hres : jGetD (J.obj [("result", J.arr [J.obj [("metric",
        J.obj [("instance", J.str inst), ("job", J.str job)]),
        ("values", J.arr (pts.map (fun p => J.arr [J.int p.1, p.2])))]])])
      "result" (.arr [])
      = .ok (J.arr [J.obj [("metric",
          J.obj [("instance", J.str inst), ("job", J.str job)]),
          ("values", J.arr (pts.map (fun p => J.arr [J.int p.1, p.2])))]]) := rfl
  simp only [hres, bindE_ok]
  rw [if_neg (by simp [truthy])]
  rw [if_neg (by decide)]
  simp only [jLen, bindE_ok]
  rw [if_neg (by decide)]
  have hsl : pySliceToJ (J.arr [J.obj [("metric",
        J.obj [("instance", J.str inst), ("job", J.str job)]),
        ("values", J.arr (pts.map (fun p => J.arr [J.int p.1, p.2])))]]) 20
      = .ok [J.obj [("metric",
          J.obj [("instance", J.str inst), ("job", J.str job)]),
          ("values", J.arr (pts.map (fun p => J.arr [J.int p.1, p.2])))]] := rfl
  simp only [hsl, bindE_ok, hrows]
  rw [if_neg (by norm_num)]
  rfl

/-- Claim C5 (amended): in table mode the three shapes behave
differently — the native path emits the last `max_points` points with
the `job/instance` name cut to 30 characters (no ellipsis) and values
rendered verbatim; the frames path emits the last 10 points with the
name verbatim (never truncated) and numeric values with two decimals;
the legacy-series path emits the last 5 points with the name cut to 40
characters plus an unconditional `"..."` and two-decimal numerics.  All
paths keep ascending (source) point order. -/
theorem claim_C5 :
    (∀ (fH fM : Int → String) (inst job : String) (pts : List (Int × J))
      (mp : Nat), inst ≠ "" → job ≠ "" → 0 < mp →
      format_prometheus_result fH fM (mkNativeTablePayload inst job pts)
          "table" 20 (mp : Int)
        = .ok (String.intercalate "\n" (nativeTableHeader
            ++ (takeLastL mp pts).map (nativeRowOf fH (job ++ "/" ++ inst)))))
    ∧ (∀ (fM : Int → String) (nm : String) (pts : List (Int × J)),
      format_series_data fM (mkFramesPayload [mkFrame (some nm)
          (pts.map Prod.fst) (pts.map Prod.snd)]) "table"
        = .ok (String.intercalate "\n" (seriesTableHeader
            ++ (takeLastL 10 pts).map (framesRowOf fM nm))))
    ∧ (∀ (fM : Int → String) (nm : String) (pts : List (J × Int)),
      format_series_data fM (mkSeriesPayload [mkLegacySeries nm pts]) "table"
        = .ok (String.intercalate "\n" (seriesTableHeader
            ++ (takeLastL 5 pts).map (seriesRowOf fM nm)))) := by
  refine ⟨?_, ?_, ?_⟩
  · intro fH fM inst job pts mp hi hj hmp
    exact native_table_general fH fM inst job hi hj pts mp hmp
  · intro fM nm pts
    have hz : (pts.map Prod.fst).zip (pts.map Prod.snd) = pts := by
      rw [List.zip_map']
      simp
    have h := frames_table_general fM (some nm) (pts.map Prod.fst)
      (pts.map Prod.snd) (by simp)
    rw [h, hz]
    rfl
  · intro fM nm pts
    exact series_table_general fM nm pts

/-- Witness for C5 at one concrete point per shape. -/
theorem claim_C5_witness :
    format_prometheus_result tT tT (mkNativeTablePayload "a" "j" [(0, J.int 5)])
        "table" 20 ((10 : Nat) : Int)
      = .ok (String.intercalate "\n" (nativeTableHeader
          ++ (takeLastL 10 [((0 : Int), J.int 5)]).map
              (nativeRowOf tT ("j" ++ "/" ++ "a"))))
    ∧ format_series_data tT (mkFramesPayload [mkFrame (some "j/a")
        ([(0, J.int 5)].map Prod.fst) ([((0 : Int), J.int 5)].map Prod.snd)]) "table"
      = .ok (String.intercalate "\n" (seriesTableHeader
          ++ (takeLastL 10 [((0 : Int), J.int 5)]).map (framesRowOf tT "j/a")))
    ∧ format_series_data tT (mkSeriesPayload [mkLegacySeries "n" [(J.int 5, 0)]])
        "table"
      = .ok (String.intercalate "\n" (seriesTableHeader
          ++ (takeLastL 5 [(J.int 5, (0 : Int))]).map (seriesRowOf tT "n"))) :=
  ⟨claim_C5.1 tT tT "a" "j" [(0, J.int 5)] 10 (by decide) (by decide)
      (by norm_num),
    claim_C5.2.1 tT "j/a" [(0, J.int 5)],
    claim_C5.2.2 tT "n" [(J.int 5, 0)]⟩

/-- Counterexample for C5 as stated: the same integer value `5` at the
same instant renders as `5` in the native table (verbatim, no
two-decimal formatting; name cut without ellipsis) but as `5.00` in the
frames table — the claimed uniform two-decimal rendering across shapes
fails. -/
theorem claim_C5_counterexample :
    format_prometheus_result tT tT (mkNativeTablePayload "a" "j" [(0, J.int 5)])
        "table" 20 10
      = .ok "| Time | Metric | Value |\n|------|--------|-------|\n| T | j/a | 5 |"
    ∧ format_series_data tT
        (mkFramesPayload [mkFrame (some "j/a") [0] [J.int 5]]) "table"
      = .ok "| Time | Series | Value |\n|------|--------|-------|\n| T | j/a | 5.00 |" :=
  ⟨rfl, rfl⟩

/-- Claim C7 (amended): in the frames table, positional pairing
truncates to the timestamp column when that column is the shorter (or
equal) one; when the value column is strictly shorter the loop indexes
past its end and the formatter returns the `IndexError` message with the
dumped payload instead of truncating; an absent declared name falls back
to the `"Series"` placeholder. -/
theorem claim_C7 :
    (∀ (fM : Int → String) (nm : Option String) (times : List Int)
      (vals : List J), times.length ≤ vals.length →
      format_series_data fM (mkFramesPayload [mkFrame nm times vals]) "table"
        = .ok (String.intercalate "\n" (seriesTableHeader
            ++ (takeLastL 10 (times.zip vals)).map
                (framesRowOf fM (frameNameOf nm)))))
    ∧ (∀ (fM : Int → String) (nm : Option String) (times : List Int)
      (vals : List J), vals.length < times.length →
      format_series_data fM (mkFramesPayload [mkFrame nm times vals]) "table"
        = .ok ("Error formatting data: list index out of range\n"
            ++ jdumps (mkFramesPayload [mkFrame nm times vals])))
    ∧ (∀ (fM : Int → String) (times : List Int) (vals : List J),
      times.length ≤ vals.length →
      format_series_data fM (mkFramesPayload [mkFrame none times vals]) "table"
        = .ok (String.intercalate "\n" (seriesTableHeader
            ++ (takeLastL 10 (times.zip vals)).map (framesRowOf fM "Series")))) :=
  ⟨fun fM nm times vals h => frames_table_general fM nm times vals h,
    fun fM nm times vals h => frames_table_indexerror fM nm times vals h,
    fun fM times vals h => frames_table_general fM none times vals h⟩

/-- Witness for C7: a frame with the timestamp column shorter truncates
to it; a frame with the value column shorter yields the error string; a
nameless frame uses the placeholder. -/
theorem claim_C7_witness :
    format_series_data tT (mkFramesPayload [mkFrame (some "x") [0]
        [J.int 5, J.int 6]]) "table"
      = .ok (String.intercalate "\n" (seriesTableHeader
          ++ (takeLastL 10 ([(0 : Int)].zip [J.int 5, J.int 6])).map
              (framesRowOf tT (frameNameOf (some "x")))))
    ∧ format_series_data tT (mkFramesPayload [mkFrame (some "x") [1000, 2000]
        [J.int 5]]) "table"
      = .ok ("Error formatting data: list index out of range\n"
          ++ jdumps (mkFramesPayload [mkFrame (some "x") [1000, 2000] [J.int 5]]))
    ∧ format_series_data tT (mkFramesPayload [mkFrame none [0] [J.int 5]]) "table"
      = .ok (String.intercalate "\n" (seriesTableHeader
          ++ (takeLastL 10 ([(0 : Int)].zip [J.int 5])).map
              (framesRowOf tT "Series"))) :=
  ⟨claim_C7.1 tT (some "x") [0] [J.int 5, J.int 6] (by norm_num),
    claim_C7.2.1 tT (some "x") [1000, 2000] [J.int 5] (by norm_num),
    claim_C7.2.2 tT [0] [J.int 5] (by norm_num)⟩

/-- Counterexample for C7 as stated: a frame whose value column (one
value) is shorter than its timestamp column (two timestamps) does not
truncate to the shorter length — the formatter returns the
`"Error formatting data"` string instead of any table rows. -/
theorem claim_C7_counterexample :
    format_series_data tT (mkFramesPayload [mkFrame (some "x") [1000, 2000]
        [J.int 5]]) "table"
      = .ok ("Error formatting data: list index out of range\n"
          ++ jdumps (mkFramesPayload [mkFrame (some "x") [1000, 2000] [J.int 5]]))
    ∧ (("Error formatting data: list index out of range\n"
          ++ jdumps (mkFramesPayload [mkFrame (some "x") [1000, 2000] [J.int 5]]))
        ≠ String.intercalate "\n" (seriesTableHeader
            ++ (takeLastL 10 ([(1000 : Int)].zip [J.int 5])).map
                (framesRowOf tT "x"))) :=
  ⟨rfl, by decide⟩
